import Mathlib

/-!
Verification of the prost runtime core: Protocol Buffers well-known wrapper
types (`src/types.rs`) and the conformance driver loop
(`proto-conformance/src/main.rs`).

Byte buffers are modelled as `List Nat` (each element a byte value < 256 where
produced by an encoder).  Machine integers are modelled as `Nat`/`Int` with
explicit `% 2 ^ w` at the points where the Rust code casts or wraps.  Floats
are modelled by their IEEE-754 bit patterns (a `Nat` below `2 ^ 64` or
`2 ^ 32`) together with the IEEE equality relation the Rust `==`/`!=`
operators denote; no floating-point arithmetic is involved anywhere in the
code under verification, only equality against `0.0` and bit transport.
-/

namespace ProstSpec

/-- Decode failure carrying a description, mirroring `prost::DecodeError`. -/
structure DecodeError where
  description : String
deriving DecidableEq

instance {ε α : Type} [DecidableEq ε] [DecidableEq α] : DecidableEq (Except ε α) :=
  fun x y =>
    match x, y with
    | .error a, .error b =>
      if h : a = b then .isTrue (h ▸ rfl)
      else .isFalse fun hc => h (Except.error.inj hc)
    | .ok a, .ok b =>
      if h : a = b then .isTrue (h ▸ rfl)
      else .isFalse fun hc => h (Except.ok.inj hc)
    | .error _, .ok _ => .isFalse fun hc => Except.noConfusion hc
    | .ok _, .error _ => .isFalse fun hc => Except.noConfusion hc

/-- Modelled from the spec: the wire-type enumeration of section 3
(Varint, Fixed64, LengthDelimited, Fixed32) plus the deprecated group
markers consumed by `skip_field` (section 4.2).  The `encoding::WireType`
enum itself is not among the provided sources. -/
inductive WireType where
  | Varint
  | SixtyFourBit
  | LengthDelimited
  | StartGroup
  | EndGroup
  | ThirtyTwoBit
deriving DecidableEq

/-- Modelled from the spec: the numeric value of a wire type as packed into
the low three bits of a field key. -/
def WireType.val : WireType → Nat
  | .Varint => 0
  | .SixtyFourBit => 1
  | .LengthDelimited => 2
  | .StartGroup => 3
  | .EndGroup => 4
  | .ThirtyTwoBit => 5

/-- Modelled from the spec: reading a wire-type number from the stream.
Section 3 calls the wire types "a small closed enumeration", so the two
unused three-bit values are a `DecodeError` (section 4.1: a mismatching or
invalid wire type is an error, never a panic). -/
def wire_type_of (n : Nat) : Except DecodeError WireType :=
  match n with
  | 0 => .ok .Varint
  | 1 => .ok .SixtyFourBit
  | 2 => .ok .LengthDelimited
  | 3 => .ok .StartGroup
  | 4 => .ok .EndGroup
  | 5 => .ok .ThirtyTwoBit
  | _ => .error ⟨"invalid wire type value"⟩

/-- Modelled from the spec (section 4.1): LEB128-style varint encoding,
7 payload bits per byte, continuation bit set on all but the last byte,
little-endian order of the 7-bit groups.  The `encoding` module holding
`encode_varint` is not among the provided sources. -/
def encode_varint (n : Nat) : List Nat :=
  if n < 128 then [n]
  else (n % 128 + 128) :: encode_varint (n / 128)
termination_by n
decreasing_by omega

/-- Modelled from the spec (section 4.3, `encoded_len`): the exact byte count
of the varint encoding of `n`. -/
def varint_len (n : Nat) : Nat :=
  if n < 128 then 1
  else 1 + varint_len (n / 128)
termination_by n
decreasing_by omega

/-- Modelled from the spec (section 4.1): varint decoding.  A buffer that
ends inside a varint is a malformed-varint `DecodeError` (section 7). -/
def decode_varint : List Nat → Except DecodeError (Nat × List Nat)
  | [] => .error ⟨"invalid varint"⟩
  | b :: rest =>
    if b < 128 then .ok (b, rest)
    else
      match decode_varint rest with
      | .error e => .error e
      | .ok (n, r) => .ok (b % 128 + 128 * n, r)

/-- Modelled from the spec (section 4.1): fixed-width little-endian byte
serialization used by the Fixed32/Fixed64 wire types. -/
def le_bytes : Nat → Nat → List Nat
  | 0, _ => []
  | k + 1, n => n % 256 :: le_bytes k (n / 256)

/-- Modelled from the spec (section 4.1): little-endian reassembly of a
fixed-width value from its bytes. -/
def from_le_bytes : List Nat → Nat
  | [] => 0
  | b :: rest => b % 256 + 256 * from_le_bytes rest

/-- Modelled from the spec (section 3): a field key is the varint of
`tag * 8 + wire_type`, appended to the output buffer. -/
def encode_key (tag : Nat) (wt : WireType) (buf : List Nat) : List Nat :=
  buf ++ encode_varint (tag * 8 + wt.val)

/-- Modelled from the spec: the byte length of a field key (the wire type
occupies the low three bits and never changes the varint length). -/
def key_len (tag : Nat) : Nat := varint_len (tag * 8)

/-- A UTF-8 continuation byte (`10xxxxxx`). -/
def utf8_cont (b : Nat) : Bool := 128 ≤ b && b ≤ 191

/-- UTF-8 validity of a byte sequence per RFC 3629, as checked by
`core::str::from_utf8`: no overlong encodings, no surrogate code points,
nothing above `U+10FFFF`. -/
def utf8_valid : List Nat → Bool
  | [] => true
  | b :: rest =>
    if b < 128 then utf8_valid rest
    else
      match rest with
      | [] => false
      | c1 :: r1 =>
        if 194 ≤ b && b ≤ 223 then utf8_cont c1 && utf8_valid r1
        else
          match r1 with
          | [] => false
          | c2 :: r2 =>
            if b = 224 then (160 ≤ c1 && c1 ≤ 191) && utf8_cont c2 && utf8_valid r2
            else if (225 ≤ b && b ≤ 236) || b = 238 || b = 239 then
              utf8_cont c1 && utf8_cont c2 && utf8_valid r2
            else if b = 237 then (128 ≤ c1 && c1 ≤ 159) && utf8_cont c2 && utf8_valid r2
            else
              match r2 with
              | [] => false
              | c3 :: r3 =>
                if b = 240 then (144 ≤ c1 && c1 ≤ 191) && utf8_cont c2 && utf8_cont c3 && utf8_valid r3
                else if 241 ≤ b && b ≤ 243 then
                  utf8_cont c1 && utf8_cont c2 && utf8_cont c3 && utf8_valid r3
                else if b = 244 then (128 ≤ c1 && c1 ≤ 143) && utf8_cont c2 && utf8_cont c3 && utf8_valid r3
                else false

/-- A Rust `String`: a byte buffer carrying the `String` type's UTF-8
invariant. -/
def RustString : Type := { l : List Nat // utf8_valid l = true }

/-- `String::is_empty`. -/
def rust_string_is_empty (s : RustString) : Bool := s.val.isEmpty

/-- `String::default` / the result of `String::clear`: the empty string. -/
def rust_string_default : RustString := ⟨[], rfl⟩

/-- `bytes::Bytes`: a shared, reference-counted allocation with a window
`[off, off + len)` onto it; `Bytes` guarantees the window lies inside the
allocation.  Two views with different allocations can expose identical
bytes. -/
structure BytesView where
  alloc : List Nat
  off : Nat
  len : Nat
  wf : off + len ≤ alloc.length

/-- The bytes a `Bytes` view exposes. -/
def BytesView.toList (v : BytesView) : List Nat :=
  (v.alloc.drop v.off).take v.len

/-- A freshly allocated `Bytes` owning exactly `l` (`Bytes::from`). -/
def BytesView.ofList (l : List Nat) : BytesView :=
  ⟨l, 0, l.length, by simp⟩

/-- `Bytes::default` / `Bytes::new`: the empty view. -/
def BytesView.emptyBytes : BytesView :=
  ⟨[], 0, 0, by simp⟩

/-- `Bytes::clear`: truncate the view to length zero without touching the
shared allocation (spec section 3: "clear replaces the internal span with an
empty one rather than zeroing shared memory"). -/
def BytesView.clearBytes (v : BytesView) : BytesView :=
  ⟨v.alloc, v.off, 0, by have := v.wf; omega⟩

namespace pbbool

/-- Modelled from the spec (section 4.1): `encoding::bool::encode` — a
Varint-keyed field whose payload byte is 1 for true, 0 for false. -/
def encode (tag : Nat) (v : Bool) (buf : List Nat) : List Nat :=
  encode_key tag .Varint buf ++ [if v then 1 else 0]

/-- Modelled from the spec (section 4.1): `encoding::bool::merge` — requires
the Varint wire type, reads one varint, interprets nonzero as true. -/
def merge (wt : WireType) (_v : Bool) (buf : List Nat) :
    Except DecodeError (Bool × List Nat) :=
  match wt with
  | .Varint =>
    match decode_varint buf with
    | .error e => .error e
    | .ok (n, rest) => .ok (n != 0, rest)
  | _ => .error ⟨"invalid wire type"⟩

/-- Modelled from the spec: `encoding::bool::encoded_len` — one key plus one
payload byte. -/
def encoded_len (tag : Nat) (_v : Bool) : Nat := key_len tag + 1

end pbbool

namespace uint32

/-- Modelled from the spec (section 4.1): `encoding::uint32::encode`. -/
def encode (tag : Nat) (v : Nat) (buf : List Nat) : List Nat :=
  encode_key tag .Varint buf ++ encode_varint v

/-- Modelled from the spec (section 4.1): `encoding::uint32::merge` — the
decoded varint is cast down to 32 bits. -/
def merge (wt : WireType) (_v : Nat) (buf : List Nat) :
    Except DecodeError (Nat × List Nat) :=
  match wt with
  | .Varint =>
    match decode_varint buf with
    | .error e => .error e
    | .ok (n, rest) => .ok (n % 2 ^ 32, rest)
  | _ => .error ⟨"invalid wire type"⟩

/-- Modelled from the spec: `encoding::uint32::encoded_len`. -/
def encoded_len (tag : Nat) (v : Nat) : Nat := key_len tag + varint_len v

end uint32

namespace uint64

/-- Modelled from the spec (section 4.1): `encoding::uint64::encode`. -/
def encode (tag : Nat) (v : Nat) (buf : List Nat) : List Nat :=
  encode_key tag .Varint buf ++ encode_varint v

/-- Modelled from the spec (section 4.1): `encoding::uint64::merge`. -/
def merge (wt : WireType) (_v : Nat) (buf : List Nat) :
    Except DecodeError (Nat × List Nat) :=
  match wt with
  | .Varint =>
    match decode_varint buf with
    | .error e => .error e
    | .ok (n, rest) => .ok (n % 2 ^ 64, rest)
  | _ => .error ⟨"invalid wire type"⟩

/-- Modelled from the spec: `encoding::uint64::encoded_len`. -/
def encoded_len (tag : Nat) (v : Nat) : Nat := key_len tag + varint_len v

end uint64

/-- The `v as u64` view of a signed 64-bit value: two's complement. -/
def i64_as_u64 (v : Int) : Nat := (v % (2 ^ 64 : Int)).toNat

/-- The `n as i64` view of an unsigned 64-bit value: two's complement. -/
def u64_as_i64 (n : Nat) : Int :=
  if n < 2 ^ 63 then (n : Int) else (n : Int) - 2 ^ 64

/-- The `n as i32` view of an unsigned 32-bit value: two's complement. -/
def u32_as_i32 (n : Nat) : Int :=
  if n < 2 ^ 31 then (n : Int) else (n : Int) - 2 ^ 32

namespace int64

/-- Modelled from the spec (sections 4.1, 9): `encoding::int64::encode` —
plain signed ints are varint-encoded via sign-extension to 64 bits, without
zigzag. -/
def encode (tag : Nat) (v : Int) (buf : List Nat) : List Nat :=
  encode_key tag .Varint buf ++ encode_varint (i64_as_u64 v)

/-- Modelled from the spec (section 4.1): `encoding::int64::merge`. -/
def merge (wt : WireType) (_v : Int) (buf : List Nat) :
    Except DecodeError (Int × List Nat) :=
  match wt with
  | .Varint =>
    match decode_varint buf with
    | .error e => .error e
    | .ok (n, rest) => .ok (u64_as_i64 (n % 2 ^ 64), rest)
  | _ => .error ⟨"invalid wire type"⟩

/-- Modelled from the spec: `encoding::int64::encoded_len`. -/
def encoded_len (tag : Nat) (v : Int) : Nat := key_len tag + varint_len (i64_as_u64 v)

end int64

namespace int32

/-- Modelled from the spec (sections 4.1, 9): `encoding::int32::encode` —
sign-extended to 64 bits before varint encoding (upstream `int32`
semantics). -/
def encode (tag : Nat) (v : Int) (buf : List Nat) : List Nat :=
  encode_key tag .Varint buf ++ encode_varint (i64_as_u64 v)

/-- Modelled from the spec (section 4.1): `encoding::int32::merge` — the
decoded varint is truncated to the low 32 bits and reinterpreted. -/
def merge (wt : WireType) (_v : Int) (buf : List Nat) :
    Except DecodeError (Int × List Nat) :=
  match wt with
  | .Varint =>
    match decode_varint buf with
    | .error e => .error e
    | .ok (n, rest) => .ok (u32_as_i32 (n % 2 ^ 32), rest)
  | _ => .error ⟨"invalid wire type"⟩

/-- Modelled from the spec: `encoding::int32::encoded_len`. -/
def encoded_len (tag : Nat) (v : Int) : Nat := key_len tag + varint_len (i64_as_u64 v)

end int32

namespace double

/-- Modelled from the spec (section 4.1): `encoding::double::encode` — a
Fixed64 field holding the raw little-endian bit pattern. -/
def encode (tag : Nat) (bits : Nat) (buf : List Nat) : List Nat :=
  encode_key tag .SixtyFourBit buf ++ le_bytes 8 bits

/-- Modelled from the spec (section 4.1): `encoding::double::merge`. -/
def merge (wt : WireType) (_bits : Nat) (buf : List Nat) :
    Except DecodeError (Nat × List Nat) :=
  match wt with
  | .SixtyFourBit =>
    if buf.length < 8 then .error ⟨"buffer underflow"⟩
    else .ok (from_le_bytes (buf.take 8), buf.drop 8)
  | _ => .error ⟨"invalid wire type"⟩

/-- Modelled from the spec: `encoding::double::encoded_len`. -/
def encoded_len (tag : Nat) (_bits : Nat) : Nat := key_len tag + 8

end double

namespace float

/-- Modelled from the spec (section 4.1): `encoding::float::encode` — a
Fixed32 field holding the raw little-endian bit pattern. -/
def encode (tag : Nat) (bits : Nat) (buf : List Nat) : List Nat :=
  encode_key tag .ThirtyTwoBit buf ++ le_bytes 4 bits

/-- Modelled from the spec (section 4.1): `encoding::float::merge`. -/
def merge (wt : WireType) (_bits : Nat) (buf : List Nat) :
    Except DecodeError (Nat × List Nat) :=
  match wt with
  | .ThirtyTwoBit =>
    if buf.length < 4 then .error ⟨"buffer underflow"⟩
    else .ok (from_le_bytes (buf.take 4), buf.drop 4)
  | _ => .error ⟨"invalid wire type"⟩

/-- Modelled from the spec: `encoding::float::encoded_len`. -/
def encoded_len (tag : Nat) (_bits : Nat) : Nat := key_len tag + 4

end float

namespace pbstring

/-- Modelled from the spec (section 4.1): `encoding::string::encode` — a
length-delimited field: varint byte length, then exactly that many raw
bytes. -/
def encode (tag : Nat) (s : RustString) (buf : List Nat) : List Nat :=
  encode_key tag .LengthDelimited buf ++ encode_varint s.val.length ++ s.val

/-- Modelled from the spec (sections 4.1, 7): `encoding::string::merge` —
reads the length-delimited payload and validates it as UTF-8; invalid UTF-8
in a checked string field is a `DecodeError`. -/
def merge (wt : WireType) (_s : RustString) (buf : List Nat) :
    Except DecodeError (RustString × List Nat) :=
  match wt with
  | .LengthDelimited =>
    match decode_varint buf with
    | .error e => .error e
    | .ok (len, rest) =>
      if len ≤ rest.length then
        match h : utf8_valid (rest.take len) with
        | true => .ok (⟨rest.take len, h⟩, rest.drop len)
        | false => .error ⟨"invalid string value: data is not UTF-8 encoded"⟩
      else .error ⟨"buffer underflow"⟩
  | _ => .error ⟨"invalid wire type"⟩

/-- Modelled from the spec: `encoding::string::encoded_len`. -/
def encoded_len (tag : Nat) (s : RustString) : Nat :=
  key_len tag + varint_len s.val.length + s.val.length

end pbstring

namespace pbbytes

/-- Modelled from the spec (section 4.1): `encoding::bytes::encode` over the
content bytes of a buffer. -/
def encode (tag : Nat) (v : List Nat) (buf : List Nat) : List Nat :=
  encode_key tag .LengthDelimited buf ++ encode_varint v.length ++ v

/-- Modelled from the spec (section 4.1): `encoding::bytes::merge_one_copy` —
replaces the `Vec<u8>` value with a copy of the length-delimited payload. -/
def merge_one_copy (wt : WireType) (_v : List Nat) (buf : List Nat) :
    Except DecodeError (List Nat × List Nat) :=
  match wt with
  | .LengthDelimited =>
    match decode_varint buf with
    | .error e => .error e
    | .ok (len, rest) =>
      if len ≤ rest.length then .ok (rest.take len, rest.drop len)
      else .error ⟨"buffer underflow"⟩
  | _ => .error ⟨"invalid wire type"⟩

/-- Modelled from the spec (section 4.1): `encoding::bytes::merge` for
`bytes::Bytes` — the value becomes a view of the length-delimited payload. -/
def merge (wt : WireType) (_v : BytesView) (buf : List Nat) :
    Except DecodeError (BytesView × List Nat) :=
  match wt with
  | .LengthDelimited =>
    match decode_varint buf with
    | .error e => .error e
    | .ok (len, rest) =>
      if len ≤ rest.length then .ok (BytesView.ofList (rest.take len), rest.drop len)
      else .error ⟨"buffer underflow"⟩
  | _ => .error ⟨"invalid wire type"⟩

/-- Modelled from the spec: `encoding::bytes::encoded_len` over content
bytes. -/
def encoded_len (tag : Nat) (v : List Nat) : Nat :=
  key_len tag + varint_len v.length + v.length

end pbbytes

/-- Modelled from the spec (section 4.2): `encoding::skip_field` with an
explicit fuel bound for the recursive group case.  Varint consumes one
varint, Fixed32/Fixed64 consume 4/8 bytes, LengthDelimited reads a length
varint then that many bytes, and the deprecated group wire type recursively
skips until its matching end marker. -/
def skip_field_fuel : Nat → WireType → Nat → List Nat → Except DecodeError (List Nat)
  | _, .Varint, _, buf =>
    (match decode_varint buf with
     | .error e => .error e
     | .ok (_, rest) => .ok rest)
  | _, .SixtyFourBit, _, buf =>
    if buf.length < 8 then .error ⟨"buffer underflow"⟩ else .ok (buf.drop 8)
  | _, .ThirtyTwoBit, _, buf =>
    if buf.length < 4 then .error ⟨"buffer underflow"⟩ else .ok (buf.drop 4)
  | _, .LengthDelimited, _, buf =>
    (match decode_varint buf with
     | .error e => .error e
     | .ok (len, rest) =>
       if len ≤ rest.length then .ok (rest.drop len)
       else .error ⟨"buffer underflow"⟩)
  | _, .EndGroup, _, _ => .error ⟨"unexpected end group tag"⟩
  | 0, .StartGroup, _, _ => .error ⟨"recursion limit reached"⟩
  | fuel + 1, .StartGroup, tag, buf =>
    (match decode_varint buf with
     | .error e => .error e
     | .ok (key, rest) =>
       match wire_type_of (key % 8) with
       | .error e => .error e
       | .ok .EndGroup =>
         if key / 8 = tag then .ok rest else .error ⟨"unexpected end group tag"⟩
       | .ok wt =>
         match skip_field_fuel fuel wt (key / 8) rest with
         | .error e => .error e
         | .ok rest2 => skip_field_fuel fuel .StartGroup tag rest2)

/-- Modelled from the spec (section 4.2): `encoding::skip_field` — consumes
exactly the bytes belonging to one field occurrence without producing a
value.  Nested groups are bounded by the buffer length, which dominates any
possible nesting depth. -/
def skip_field (wt : WireType) (tag : Nat) (buf : List Nat) :
    Except DecodeError (List Nat) :=
  skip_field_fuel (buf.length + 1) wt tag buf

/-- `str::Utf8Error` as returned by `core::str::from_utf8`; its payload is
irrelevant to the properties verified here. -/
structure Utf8Error where
deriving DecidableEq

/-- The type-level marker of `types.rs`: `Checked` buffers were validated as
UTF-8 at construction, `Unchecked` buffers were not. -/
inductive Utf8Mode where
  | Checked
  | Unchecked
deriving DecidableEq

/-- `ByteStr<Utf8Mode>` from `types.rs`: a `Bytes` buffer plus a phantom
UTF-8 marker. -/
structure ByteStr (mode : Utf8Mode) where
  buf : BytesView

/-- `ByteStr::len`: the number of bytes (`self.buf.len()`). -/
def ByteStr.len {m : Utf8Mode} (b : ByteStr m) : Nat := b.buf.len

/-- `ByteStr::is_empty`: `self.len() == 0`. -/
def ByteStr.is_empty {m : Utf8Mode} (b : ByteStr m) : Bool := b.len == 0

/-- `ByteStr::clear`: `self.buf.clear()`. -/
def ByteStr.clear {m : Utf8Mode} (b : ByteStr m) : ByteStr m :=
  ⟨b.buf.clearBytes⟩

/-- `ByteStr::as_str`: the `&str` view of the buffer without copying.  A Rust
`&str` is modelled by its byte sequence, so this is the view's bytes; the
unchecked reinterpretation inside the source is sound only under the UTF-8
invariant (claim C9). -/
def ByteStr.as_str {m : Utf8Mode} (b : ByteStr m) : List Nat := b.buf.toList

/-- `ByteStr::as_bytes`. -/
def ByteStr.as_bytes {m : Utf8Mode} (b : ByteStr m) : List Nat := b.buf.toList

/-- `ByteStr::from_utf8` (the checked constructor): validates the buffer as
UTF-8 (`core::str::from_utf8(&buf[..])?`, modelled by `utf8_valid` over the
view's bytes) and only then constructs the `ByteStr`. -/
def byte_str_from_utf8 (buf : BytesView) : Except Utf8Error (ByteStr .Checked) :=
  if utf8_valid buf.toList then .ok ⟨buf⟩ else .error ⟨⟩

/-- `ByteStr::<Unchecked>::from_utf8`: constructs without validation. -/
def byte_str_unchecked_from_utf8 (buf : BytesView) : ByteStr .Unchecked := ⟨buf⟩

/-- `impl<T> From<String> for ByteStr<T>`: wraps the string's bytes, which
are already guaranteed UTF-8 by the `String` invariant. -/
def byte_str_from_string (m : Utf8Mode) (s : RustString) : ByteStr m :=
  ⟨BytesView.ofList s.val⟩

/-- `impl<'a, T> From<&'a str> for ByteStr<T>`: `Self::from(value.to_string())`. -/
def byte_str_from_str (m : Utf8Mode) (s : RustString) : ByteStr m :=
  byte_str_from_string m s

/-- `impl<T> Default for ByteStr<T>`: the default (empty) `Bytes`. -/
def byte_str_default (m : Utf8Mode) : ByteStr m := ⟨BytesView.emptyBytes⟩

/-- `PartialEq for ByteStr` from `types.rs`: `self.as_str() == other.as_ref()`
— equality of the decoded string views (byte equality of `&str`). -/
def byte_str_eq {m : Utf8Mode} (a b : ByteStr m) : Bool :=
  a.as_str == b.as_str

/-- `Ord for str`: lexicographic byte comparison, the ordering underlying
`self.as_str().cmp(other.as_str())`. -/
def str_cmp : List Nat → List Nat → Ordering
  | [], [] => .eq
  | [], _ :: _ => .lt
  | _ :: _, [] => .gt
  | a :: as_, b :: bs =>
    if a < b then .lt
    else if b < a then .gt
    else str_cmp as_ bs

/-- `Ord for ByteStr` from `types.rs`: `self.as_str().cmp(other.as_str())`. -/
def byte_str_cmp {m : Utf8Mode} (a b : ByteStr m) : Ordering :=
  str_cmp a.as_str b.as_str

/-- `Hash for ByteStr` from `types.rs`: `self.as_str().hash(state)`.  A
hasher is modelled by the transcript of bytes fed to it; hashing a `&str`
feeds its bytes followed by the `0xFF` terminator, so equal transcripts give
equal hashes under every concrete hasher. -/
def byte_str_hash {m : Utf8Mode} (a : ByteStr m) : List Nat :=
  a.as_str ++ [255]

namespace byte_str

/-- Modelled from the spec (section 4.5): `encoding::byte_str::merge` — the
checked variant's merge path reads the length-delimited payload and calls
the checked constructor internally, so invalid UTF-8 is a `DecodeError`. -/
def merge (wt : WireType) (_v : ByteStr .Checked) (buf : List Nat) :
    Except DecodeError (ByteStr .Checked × List Nat) :=
  match wt with
  | .LengthDelimited =>
    match decode_varint buf with
    | .error e => .error e
    | .ok (len, rest) =>
      if len ≤ rest.length then
        if utf8_valid (rest.take len) then
          .ok (⟨BytesView.ofList (rest.take len)⟩, rest.drop len)
        else .error ⟨"invalid string value: data is not UTF-8 encoded"⟩
      else .error ⟨"buffer underflow"⟩
  | _ => .error ⟨"invalid wire type"⟩

end byte_str

namespace byte_str_unchecked

/-- Modelled from the spec (section 4.5): `encoding::byte_str_unchecked::merge`
— identical to the checked merge but skips UTF-8 validation. -/
def merge (wt : WireType) (_v : ByteStr .Unchecked) (buf : List Nat) :
    Except DecodeError (ByteStr .Unchecked × List Nat) :=
  match wt with
  | .LengthDelimited =>
    match decode_varint buf with
    | .error e => .error e
    | .ok (len, rest) =>
      if len ≤ rest.length then
        .ok (⟨BytesView.ofList (rest.take len)⟩, rest.drop len)
      else .error ⟨"buffer underflow"⟩
  | _ => .error ⟨"invalid wire type"⟩

end byte_str_unchecked

/-- IEEE-754 binary64 exponent field of a bit pattern. -/
def f64_exp (bits : Nat) : Nat := bits / 2 ^ 52 % 2 ^ 11

/-- IEEE-754 binary64 fraction field of a bit pattern. -/
def f64_frac (bits : Nat) : Nat := bits % 2 ^ 52

/-- Whether a binary64 bit pattern denotes a NaN. -/
def f64_is_nan (bits : Nat) : Bool := (f64_exp bits == 2047) && (f64_frac bits != 0)

/-- Whether a binary64 bit pattern denotes a zero (`+0.0` or `-0.0`). -/
def f64_is_zero (bits : Nat) : Bool := bits == 0 || bits == 2 ^ 63

/-- IEEE-754 equality on binary64 bit patterns: the relation Rust's `==` on
`f64` denotes.  NaN compares unequal to everything (itself included);
`+0.0` and `-0.0` compare equal; any other two values are equal exactly when
their bit patterns coincide. -/
def rust_f64_eq (a b : Nat) : Bool :=
  if f64_is_nan a || f64_is_nan b then false
  else if f64_is_zero a && f64_is_zero b then true
  else a == b

/-- Rust `!=` on `f64`. -/
def rust_f64_ne (a b : Nat) : Bool := !rust_f64_eq a b

/-- IEEE-754 binary32 exponent field of a bit pattern. -/
def f32_exp (bits : Nat) : Nat := bits / 2 ^ 23 % 2 ^ 8

/-- IEEE-754 binary32 fraction field of a bit pattern. -/
def f32_frac (bits : Nat) : Nat := bits % 2 ^ 23

/-- Whether a binary32 bit pattern denotes a NaN. -/
def f32_is_nan (bits : Nat) : Bool := (f32_exp bits == 255) && (f32_frac bits != 0)

/-- Whether a binary32 bit pattern denotes a zero (`+0.0` or `-0.0`). -/
def f32_is_zero (bits : Nat) : Bool := bits == 0 || bits == 2 ^ 31

/-- IEEE-754 equality on binary32 bit patterns (Rust `==` on `f32`). -/
def rust_f32_eq (a b : Nat) : Bool :=
  if f32_is_nan a || f32_is_nan b then false
  else if f32_is_zero a && f32_is_zero b then true
  else a == b

/-- Rust `!=` on `f32`. -/
def rust_f32_ne (a b : Nat) : Bool := !rust_f32_eq a b

/-- `impl Message for bool`, `encode_raw` (`types.rs`): emit the tag-1 field
only when the value is true. -/
def bool_encode_raw (v : Bool) (buf : List Nat) : List Nat :=
  if v then pbbool.encode 1 v buf else buf

/-- `impl Message for bool`, `merge_field` (`types.rs`). -/
def bool_merge_field (v : Bool) (tag : Nat) (wt : WireType) (buf : List Nat) :
    Except DecodeError (Bool × List Nat) :=
  if tag = 1 then pbbool.merge wt v buf
  else Except.map (fun rest => (v, rest)) (skip_field wt tag buf)

/-- `impl Message for bool`, `encoded_len` (`types.rs`): hard-coded 2 when
true, 0 when false. -/
def bool_encoded_len (v : Bool) : Nat :=
  if v then 2 else 0

/-- `impl Message for bool`, `clear` (`types.rs`). -/
def bool_clear (_v : Bool) : Bool := false

/-- `impl Message for u32`, `encode_raw` (`types.rs`). -/
def u32_encode_raw (v : Nat) (buf : List Nat) : List Nat :=
  if v ≠ 0 then uint32.encode 1 v buf else buf

/-- `impl Message for u32`, `merge_field` (`types.rs`). -/
def u32_merge_field (v : Nat) (tag : Nat) (wt : WireType) (buf : List Nat) :
    Except DecodeError (Nat × List Nat) :=
  if tag = 1 then uint32.merge wt v buf
  else Except.map (fun rest => (v, rest)) (skip_field wt tag buf)

/-- `impl Message for u32`, `encoded_len` (`types.rs`). -/
def u32_encoded_len (v : Nat) : Nat :=
  if v ≠ 0 then uint32.encoded_len 1 v else 0

/-- `impl Message for u32`, `clear` (`types.rs`). -/
def u32_clear (_v : Nat) : Nat := 0

/-- `impl Message for u64`, `encode_raw` (`types.rs`). -/
def u64_encode_raw (v : Nat) (buf : List Nat) : List Nat :=
  if v ≠ 0 then uint64.encode 1 v buf else buf

/-- `impl Message for u64`, `merge_field` (`types.rs`). -/
def u64_merge_field (v : Nat) (tag : Nat) (wt : WireType) (buf : List Nat) :
    Except DecodeError (Nat × List Nat) :=
  if tag = 1 then uint64.merge wt v buf
  else Except.map (fun rest => (v, rest)) (skip_field wt tag buf)

/-- `impl Message for u64`, `encoded_len` (`types.rs`). -/
def u64_encoded_len (v : Nat) : Nat :=
  if v ≠ 0 then uint64.encoded_len 1 v else 0

/-- `impl Message for u64`, `clear` (`types.rs`). -/
def u64_clear (_v : Nat) : Nat := 0

/-- `impl Message for i32`, `encode_raw` (`types.rs`). -/
def i32_encode_raw (v : Int) (buf : List Nat) : List Nat :=
  if v ≠ 0 then int32.encode 1 v buf else buf

/-- `impl Message for i32`, `merge_field` (`types.rs`). -/
def i32_merge_field (v : Int) (tag : Nat) (wt : WireType) (buf : List Nat) :
    Except DecodeError (Int × List Nat) :=
  if tag = 1 then int32.merge wt v buf
  else Except.map (fun rest => (v, rest)) (skip_field wt tag buf)

/-- `impl Message for i32`, `encoded_len` (`types.rs`). -/
def i32_encoded_len (v : Int) : Nat :=
  if v ≠ 0 then int32.encoded_len 1 v else 0

/-- `impl Message for i32`, `clear` (`types.rs`). -/
def i32_clear (_v : Int) : Int := 0

/-- `impl Message for i64`, `encode_raw` (`types.rs`). -/
def i64_encode_raw (v : Int) (buf : List Nat) : List Nat :=
  if v ≠ 0 then int64.encode 1 v buf else buf

/-- `impl Message for i64`, `merge_field` (`types.rs`). -/
def i64_merge_field (v : Int) (tag : Nat) (wt : WireType) (buf : List Nat) :
    Except DecodeError (Int × List Nat) :=
  if tag = 1 then int64.merge wt v buf
  else Except.map (fun rest => (v, rest)) (skip_field wt tag buf)

/-- `impl Message for i64`, `encoded_len` (`types.rs`). -/
def i64_encoded_len (v : Int) : Nat :=
  if v ≠ 0 then int64.encoded_len 1 v else 0

/-- `impl Message for i64`, `clear` (`types.rs`). -/
def i64_clear (_v : Int) : Int := 0

/-- `impl Message for f32`, `encode_raw` (`types.rs`): `if *self != 0.0`,
the IEEE comparison against the `0.0` bit pattern. -/
def f32_encode_raw (bits : Nat) (buf : List Nat) : List Nat :=
  if rust_f32_ne bits 0 then float.encode 1 bits buf else buf

/-- `impl Message for f32`, `merge_field` (`types.rs`). -/
def f32_merge_field (bits : Nat) (tag : Nat) (wt : WireType) (buf : List Nat) :
    Except DecodeError (Nat × List Nat) :=
  if tag = 1 then float.merge wt bits buf
  else Except.map (fun rest => (bits, rest)) (skip_field wt tag buf)

/-- `impl Message for f32`, `encoded_len` (`types.rs`). -/
def f32_encoded_len (bits : Nat) : Nat :=
  if rust_f32_ne bits 0 then float.encoded_len 1 bits else 0

/-- `impl Message for f32`, `clear` (`types.rs`): `*self = 0.0`. -/
def f32_clear (_bits : Nat) : Nat := 0

/-- `impl Message for f64`, `encode_raw` (`types.rs`): `if *self != 0.0`,
the IEEE comparison against the `0.0` bit pattern. -/
def f64_encode_raw (bits : Nat) (buf : List Nat) : List Nat :=
  if rust_f64_ne bits 0 then double.encode 1 bits buf else buf

/-- `impl Message for f64`, `merge_field` (`types.rs`). -/
def f64_merge_field (bits : Nat) (tag : Nat) (wt : WireType) (buf : List Nat) :
    Except DecodeError (Nat × List Nat) :=
  if tag = 1 then double.merge wt bits buf
  else Except.map (fun rest => (bits, rest)) (skip_field wt tag buf)

/-- `impl Message for f64`, `encoded_len` (`types.rs`). -/
def f64_encoded_len (bits : Nat) : Nat :=
  if rust_f64_ne bits 0 then double.encoded_len 1 bits else 0

/-- `impl Message for f64`, `clear` (`types.rs`): `*self = 0.0`. -/
def f64_clear (_bits : Nat) : Nat := 0

/-- `impl Message for String`, `encode_raw` (`types.rs`). -/
def string_encode_raw (s : RustString) (buf : List Nat) : List Nat :=
  if !rust_string_is_empty s then pbstring.encode 1 s buf else buf

/-- `impl Message for String`, `merge_field` (`types.rs`). -/
def string_merge_field (s : RustString) (tag : Nat) (wt : WireType) (buf : List Nat) :
    Except DecodeError (RustString × List Nat) :=
  if tag = 1 then pbstring.merge wt s buf
  else Except.map (fun rest => (s, rest)) (skip_field wt tag buf)

/-- `impl Message for String`, `encoded_len` (`types.rs`). -/
def string_encoded_len (s : RustString) : Nat :=
  if !rust_string_is_empty s then pbstring.encoded_len 1 s else 0

/-- `impl Message for String`, `clear` (`types.rs`). -/
def string_clear (_s : RustString) : RustString := rust_string_default

/-- `impl Message for Vec<u8>`, `encode_raw` (`types.rs`). -/
def vec_u8_encode_raw (v : List Nat) (buf : List Nat) : List Nat :=
  if !v.isEmpty then pbbytes.encode 1 v buf else buf

/-- `impl Message for Vec<u8>`, `merge_field` (`types.rs`): tag 1 goes to
`bytes::merge_one_copy`. -/
def vec_u8_merge_field (v : List Nat) (tag : Nat) (wt : WireType) (buf : List Nat) :
    Except DecodeError (List Nat × List Nat) :=
  if tag = 1 then pbbytes.merge_one_copy wt v buf
  else Except.map (fun rest => (v, rest)) (skip_field wt tag buf)

/-- `impl Message for Vec<u8>`, `encoded_len` (`types.rs`). -/
def vec_u8_encoded_len (v : List Nat) : Nat :=
  if !v.isEmpty then pbbytes.encoded_len 1 v else 0

/-- `impl Message for Vec<u8>`, `clear` (`types.rs`). -/
def vec_u8_clear (_v : List Nat) : List Nat := []

/-- `impl Message for Bytes`, `encode_raw` (`types.rs`). -/
def bytes_value_encode_raw (v : BytesView) (buf : List Nat) : List Nat :=
  if !(v.len == 0) then pbbytes.encode 1 v.toList buf else buf

/-- `impl Message for Bytes`, `merge_field` (`types.rs`): tag 1 goes to
`bytes::merge`. -/
def bytes_value_merge_field (v : BytesView) (tag : Nat) (wt : WireType) (buf : List Nat) :
    Except DecodeError (BytesView × List Nat) :=
  if tag = 1 then pbbytes.merge wt v buf
  else Except.map (fun rest => (v, rest)) (skip_field wt tag buf)

/-- `impl Message for Bytes`, `encoded_len` (`types.rs`). -/
def bytes_value_encoded_len (v : BytesView) : Nat :=
  if !(v.len == 0) then pbbytes.encoded_len 1 v.toList else 0

/-- `impl Message for Bytes`, `clear` (`types.rs`). -/
def bytes_value_clear (v : BytesView) : BytesView := v.clearBytes

/-- `impl Message for ()`, `encode_raw` (`types.rs`): appends nothing. -/
def unit_encode_raw (_v : Unit) (buf : List Nat) : List Nat := buf

/-- `impl Message for ()`, `merge_field` (`types.rs`): every field, whatever
its tag and wire type, is skipped. -/
def unit_merge_field (_v : Unit) (tag : Nat) (wt : WireType) (buf : List Nat) :
    Except DecodeError (Unit × List Nat) :=
  Except.map (fun rest => ((), rest)) (skip_field wt tag buf)

/-- `impl Message for ()`, `encoded_len` (`types.rs`): always 0. -/
def unit_encoded_len (_v : Unit) : Nat := 0

/-- `impl Message for ()`, `clear` (`types.rs`). -/
def unit_clear (_v : Unit) : Unit := ()

/-- `impl Message for ByteStr` (checked), `encode_raw` (`types.rs`). -/
def byte_str_encode_raw (v : ByteStr .Checked) (buf : List Nat) : List Nat :=
  if !v.is_empty then pbbytes.encode 1 v.buf.toList buf else buf

/-- `impl Message for ByteStr` (checked), `merge_field` (`types.rs`): tag 1
goes to the validating `byte_str::merge`. -/
def byte_str_merge_field (v : ByteStr .Checked) (tag : Nat) (wt : WireType)
    (buf : List Nat) : Except DecodeError (ByteStr .Checked × List Nat) :=
  if tag = 1 then byte_str.merge wt v buf
  else Except.map (fun rest => (v, rest)) (skip_field wt tag buf)

/-- `impl Message for ByteStr` (checked), `encoded_len` (`types.rs`). -/
def byte_str_encoded_len (v : ByteStr .Checked) : Nat :=
  if !v.is_empty then pbbytes.encoded_len 1 v.buf.toList else 0

/-- `impl Message for ByteStr` (checked), `clear` (`types.rs`). -/
def byte_str_clear (v : ByteStr .Checked) : ByteStr .Checked := v.clear

/-- `impl Message for ByteStr<Unchecked>`, `encode_raw` (`types.rs`). -/
def byte_str_unchecked_encode_raw (v : ByteStr .Unchecked) (buf : List Nat) : List Nat :=
  if !v.is_empty then pbbytes.encode 1 v.buf.toList buf else buf

/-- `impl Message for ByteStr<Unchecked>`, `merge_field` (`types.rs`): tag 1
goes to the non-validating `byte_str_unchecked::merge`. -/
def byte_str_unchecked_merge_field (v : ByteStr .Unchecked) (tag : Nat)
    (wt : WireType) (buf : List Nat) :
    Except DecodeError (ByteStr .Unchecked × List Nat) :=
  if tag = 1 then byte_str_unchecked.merge wt v buf
  else Except.map (fun rest => (v, rest)) (skip_field wt tag buf)

/-- `impl Message for ByteStr<Unchecked>`, `encoded_len` (`types.rs`). -/
def byte_str_unchecked_encoded_len (v : ByteStr .Unchecked) : Nat :=
  if !v.is_empty then pbbytes.encoded_len 1 v.buf.toList else 0

/-- `impl Message for ByteStr<Unchecked>`, `clear` (`types.rs`). -/
def byte_str_unchecked_clear (v : ByteStr .Unchecked) : ByteStr .Unchecked := v.clear

/-- Modelled from the spec (section 4.3): decoding a message is repeatedly
reading a (tag, wire type) key from the buffer and calling `merge_field`
until the buffer is exhausted.  `fuel` bounds the iteration count; every
iteration consumes at least the one-byte minimum of the key varint, so any
fuel above the buffer length is enough. -/
def decode_loop {α : Type} (merge : α → Nat → WireType → List Nat → Except DecodeError (α × List Nat)) :
    Nat → α → List Nat → Except DecodeError α
  | _, v, [] => .ok v
  | 0, _, _ :: _ => .error ⟨"recursion limit reached"⟩
  | fuel + 1, v, b :: bs =>
    match decode_varint (b :: bs) with
    | .error e => .error e
    | .ok (key, rest) =>
      match wire_type_of (key % 8) with
      | .error e => .error e
      | .ok wt =>
        if key / 8 = 0 then .error ⟨"invalid tag value: 0"⟩
        else
          match merge v (key / 8) wt rest with
          | .error e => .error e
          | .ok (v2, rest2) => decode_loop merge fuel v2 rest2

/-- Modelled from the spec (section 4.3): a fresh decode starts from a
defaulted value and merges until the buffer is exhausted. -/
def message_decode {α : Type}
    (merge : α → Nat → WireType → List Nat → Except DecodeError (α × List Nat))
    (default : α) (buf : List Nat) : Except DecodeError α :=
  decode_loop merge (buf.length + 1) default buf

/-- Decoding a `bool` wrapper message from a byte buffer. -/
def bool_decode (buf : List Nat) : Except DecodeError Bool :=
  message_decode bool_merge_field false buf

/-- Decoding a `u32` wrapper message from a byte buffer. -/
def u32_decode (buf : List Nat) : Except DecodeError Nat :=
  message_decode u32_merge_field 0 buf

/-- Decoding a `u64` wrapper message from a byte buffer. -/
def u64_decode (buf : List Nat) : Except DecodeError Nat :=
  message_decode u64_merge_field 0 buf

/-- Decoding an `i32` wrapper message from a byte buffer. -/
def i32_decode (buf : List Nat) : Except DecodeError Int :=
  message_decode i32_merge_field 0 buf

/-- Decoding an `i64` wrapper message from a byte buffer. -/
def i64_decode (buf : List Nat) : Except DecodeError Int :=
  message_decode i64_merge_field 0 buf

/-- Decoding an `f32` wrapper message from a byte buffer (value as bit
pattern; the default is the `0.0` pattern). -/
def f32_decode (buf : List Nat) : Except DecodeError Nat :=
  message_decode f32_merge_field 0 buf

/-- Decoding an `f64` wrapper message from a byte buffer (value as bit
pattern; the default is the `0.0` pattern). -/
def f64_decode (buf : List Nat) : Except DecodeError Nat :=
  message_decode f64_merge_field 0 buf

/-- Decoding a `String` wrapper message from a byte buffer. -/
def string_decode (buf : List Nat) : Except DecodeError RustString :=
  message_decode string_merge_field rust_string_default buf

/-- Decoding a `Vec<u8>` wrapper message from a byte buffer. -/
def vec_u8_decode (buf : List Nat) : Except DecodeError (List Nat) :=
  message_decode vec_u8_merge_field [] buf

/-- Decoding a `Bytes` wrapper message from a byte buffer. -/
def bytes_value_decode (buf : List Nat) : Except DecodeError BytesView :=
  message_decode bytes_value_merge_field BytesView.emptyBytes buf

/-- Decoding a `()` (empty) message from a byte buffer. -/
def unit_decode (buf : List Nat) : Except DecodeError Unit :=
  message_decode unit_merge_field () buf

/-- Decoding a checked `ByteStr` wrapper message from a byte buffer. -/
def byte_str_decode (buf : List Nat) : Except DecodeError (ByteStr .Checked) :=
  message_decode byte_str_merge_field (byte_str_default .Checked) buf

/-- Decoding an unchecked `ByteStr` wrapper message from a byte buffer. -/
def byte_str_unchecked_decode (buf : List Nat) : Except DecodeError (ByteStr .Unchecked) :=
  message_decode byte_str_unchecked_merge_field (byte_str_default .Unchecked) buf

/-- A well-formed single field occurrence of each of the four non-group wire
types, used to express forward compatibility with unknown fields. -/
inductive SkippablePayload where
  | vint (n : Nat)
  | fixed64 (n : Nat)
  | lengthDelimited (bs : List Nat)
  | fixed32 (n : Nat)

/-- The wire type announced by a skippable payload. -/
def SkippablePayload.wireType : SkippablePayload → WireType
  | .vint _ => .Varint
  | .fixed64 _ => .SixtyFourBit
  | .lengthDelimited _ => .LengthDelimited
  | .fixed32 _ => .ThirtyTwoBit

/-- The payload bytes following the key. -/
def SkippablePayload.toBytes : SkippablePayload → List Nat
  | .vint n => encode_varint n
  | .fixed64 n => le_bytes 8 n
  | .lengthDelimited bs => encode_varint bs.length ++ bs
  | .fixed32 n => le_bytes 4 n

/-- The full wire bytes of one field occurrence with tag `t`: key then
payload. -/
def field_bytes (t : Nat) (p : SkippablePayload) : List Nat :=
  encode_key t p.wireType [] ++ p.toBytes

/-- The result of one iteration of the conformance driver's main loop, as
observable at the process level. -/
inductive IterationOutcome where
  | panicked (msg : String)
  | cleanExit
  | responded (remaining : List Nat)
deriving DecidableEq

/-- Little-endian `u32` of the first four bytes, as
`LittleEndian::read_u32`. -/
def read_u32_le (l : List Nat) : Nat := from_le_bytes (l.take 4)

/-- One iteration of `main` from `proto-conformance/src/main.rs`,
lines 38-45, over the remaining stdin bytes: read a 4-byte little-endian
length prefix (`read_exact(..).expect("input closed")` — a panic when the
stream cannot fill 4 bytes), then exactly `len` request bytes
(`read_exact(..).unwrap()` — a panic when the stream cannot fill them).
Request handling, which always writes a response and continues the loop, is
abstracted as `responded` with the rest of the input. -/
def main_iteration (input : List Nat) : IterationOutcome :=
  if input.length < 4 then .panicked "input closed"
  else
    let len := read_u32_le input
    let rest := input.drop 4
    if rest.length < len then .panicked "called unwrap on an Err value"
    else .responded (rest.drop len)

/-- The checked `ByteStr` values reachable through the public API of
`types.rs`: the validating constructor, the conversions from `String` and
`&str`, the default value, and closure under `clear` and `merge_field`. -/
inductive CheckedReachable : ByteStr .Checked → Prop where
  | of_from_utf8 (v : BytesView) (b : ByteStr .Checked) :
      byte_str_from_utf8 v = .ok b → CheckedReachable b
  | of_from_string (s : RustString) :
      CheckedReachable (byte_str_from_string .Checked s)
  | of_from_str (s : RustString) :
      CheckedReachable (byte_str_from_str .Checked s)
  | of_default : CheckedReachable (byte_str_default .Checked)
  | of_clear (b : ByteStr .Checked) :
      CheckedReachable b → CheckedReachable b.clear
  | of_merge_field (b b2 : ByteStr .Checked) (tag : Nat) (wt : WireType)
      (buf rest : List Nat) :
      CheckedReachable b → byte_str_merge_field b tag wt buf = .ok (b2, rest) →
      CheckedReachable b2

/-! ## Helper lemmas -/

theorem encode_varint_ne_nil (n : Nat) : encode_varint n ≠ [] := by
  rw [encode_varint]
  split <;> simp

theorem decode_varint_append (n : Nat) (rest : List Nat) :
    decode_varint (encode_varint n ++ rest) = .ok (n, rest) := by
  induction n using Nat.strong_induction_on with
  | _ n ih =>
    rw [encode_varint]
    by_cases h : n < 128
    · simp [h, decode_varint]
    · rw [if_neg h]
      simp only [List.cons_append, decode_varint, List.append_eq]
      rw [if_neg (by omega), ih (n / 128) (by omega)]
      have hn : n % 128 + 128 * (n / 128) = n := by omega
      simp [hn]

theorem decode_varint_encode (n : Nat) :
    decode_varint (encode_varint n) = .ok (n, []) := by
  have := decode_varint_append n []
  simpa using this

theorem encode_varint_length (n : Nat) :
    (encode_varint n).length = varint_len n := by
  induction n using Nat.strong_induction_on with
  | _ n ih =>
    rw [encode_varint, varint_len]
    by_cases h : n < 128
    · simp [h]
    · simp only [if_neg h, List.length_cons]
      rw [ih (n / 128) (by omega)]
      omega

theorem le_bytes_length (k n : Nat) : (le_bytes k n).length = k := by
  induction k generalizing n with
  | zero => rfl
  | succ k ih => simp [le_bytes, ih]

theorem from_le_bytes_le_bytes (k n : Nat) (h : n < 256 ^ k) :
    from_le_bytes (le_bytes k n) = n := by
  induction k generalizing n with
  | zero =>
    have : n = 0 := by simpa using h
    simp [this, le_bytes, from_le_bytes]
  | succ k ih =>
    have hdiv : n / 256 < 256 ^ k := by
      rw [Nat.div_lt_iff_lt_mul (by norm_num)]
      calc n < 256 ^ (k + 1) := h
        _ = 256 ^ k * 256 := by ring
    simp only [le_bytes, from_le_bytes, ih (n / 256) hdiv]
    omega

theorem BytesView.toList_ofList (l : List Nat) :
    (BytesView.ofList l).toList = l := by
  simp [BytesView.ofList, BytesView.toList]

theorem BytesView.toList_length (v : BytesView) : v.toList.length = v.len := by
  have := v.wf
  simp only [BytesView.toList, List.length_take, List.length_drop]
  omega

theorem str_cmp_self (l : List Nat) : str_cmp l l = .eq := by
  induction l with
  | nil => rfl
  | cons a t ih => simp [str_cmp, ih]

theorem decode_loop_nil {α : Type}
    (merge : α → Nat → WireType → List Nat → Except DecodeError (α × List Nat))
    (fuel : Nat) (v : α) : decode_loop merge fuel v [] = .ok v := by
  cases fuel <;> rfl

theorem decode_loop_step {α : Type}
    (merge : α → Nat → WireType → List Nat → Except DecodeError (α × List Nat))
    (fuel : Nat) (v0 : α) (k t : Nat) (wt : WireType) (body : List Nat)
    (hwt : wire_type_of (k % 8) = .ok wt) (hdiv : k / 8 = t) (ht : t ≠ 0) :
    decode_loop merge (fuel + 1) v0 (encode_varint k ++ body) =
      match merge v0 t wt body with
      | .error e => .error e
      | .ok (v2, rest2) => decode_loop merge fuel v2 rest2 := by
  obtain ⟨b, bs, hE⟩ :=
    List.exists_cons_of_ne_nil
      (List.append_ne_nil_of_left_ne_nil (encode_varint_ne_nil k) body)
  rw [hE]
  simp only [decode_loop]
  rw [← hE, decode_varint_append]
  simp only [hwt, hdiv]
  rw [if_neg ht]

theorem message_decode_single {α : Type}
    (merge : α → Nat → WireType → List Nat → Except DecodeError (α × List Nat))
    (d v2 : α) (k t : Nat) (wt : WireType) (body : List Nat)
    (hwt : wire_type_of (k % 8) = .ok wt) (hdiv : k / 8 = t) (ht : t ≠ 0)
    (hm : merge d t wt body = .ok (v2, [])) :
    message_decode merge d (encode_varint k ++ body) = .ok v2 := by
  unfold message_decode
  rw [decode_loop_step merge (encode_varint k ++ body).length d k t wt body hwt hdiv ht,
    hm]
  exact decode_loop_nil merge _ v2

theorem message_decode_two {α : Type}
    (merge : α → Nat → WireType → List Nat → Except DecodeError (α × List Nat))
    (d v1 v2 : α) (k1 t1 : Nat) (w1 : WireType) (b1 : List Nat)
    (k2 t2 : Nat) (w2 : WireType) (b2 : List Nat)
    (hw1 : wire_type_of (k1 % 8) = .ok w1) (hd1 : k1 / 8 = t1) (ht1 : t1 ≠ 0)
    (hw2 : wire_type_of (k2 % 8) = .ok w2) (hd2 : k2 / 8 = t2) (ht2 : t2 ≠ 0)
    (hm1 : merge d t1 w1 (b1 ++ (encode_varint k2 ++ b2)) =
      .ok (v1, encode_varint k2 ++ b2))
    (hm2 : merge v1 t2 w2 b2 = .ok (v2, [])) :
    message_decode merge d
      (encode_varint k1 ++ (b1 ++ (encode_varint k2 ++ b2))) = .ok v2 := by
  unfold message_decode
  rw [decode_loop_step merge _ d k1 t1 w1 _ hw1 hd1 ht1, hm1]
  show decode_loop merge (encode_varint k1 ++ (b1 ++ (encode_varint k2 ++ b2))).length
    v1 (encode_varint k2 ++ b2) = Except.ok v2
  have hL : (encode_varint k1 ++ (b1 ++ (encode_varint k2 ++ b2))).length =
      ((encode_varint k1 ++ (b1 ++ (encode_varint k2 ++ b2))).length - 1) + 1 := by
    have h1 : 0 < (encode_varint k1).length :=
      List.length_pos.mpr (encode_varint_ne_nil k1)
    simp only [List.length_append]
    omega
  rw [hL, decode_loop_step merge _ v1 k2 t2 w2 b2 hw2 hd2 ht2, hm2]
  exact decode_loop_nil merge _ v2

theorem skip_field_payload (p : SkippablePayload) (t : Nat) (rest : List Nat) :
    skip_field p.wireType t (p.toBytes ++ rest) = .ok rest := by
  cases p with
  | vint n =>
    simp [skip_field, skip_field_fuel, SkippablePayload.wireType,
      SkippablePayload.toBytes, decode_varint_append]
  | fixed64 n =>
    have hlen : (le_bytes 8 n).length = 8 := le_bytes_length 8 n
    simp only [skip_field, skip_field_fuel, SkippablePayload.wireType,
      SkippablePayload.toBytes, List.length_append, hlen]
    rw [if_neg (by omega), List.drop_left' hlen]
  | lengthDelimited bs =>
    simp only [skip_field, skip_field_fuel, SkippablePayload.wireType,
      SkippablePayload.toBytes, List.append_assoc, decode_varint_append]
    rw [if_pos (by simp), List.drop_left' rfl]
  | fixed32 n =>
    have hlen : (le_bytes 4 n).length = 4 := le_bytes_length 4 n
    simp only [skip_field, skip_field_fuel, SkippablePayload.wireType,
      SkippablePayload.toBytes, List.length_append, hlen]
    rw [if_neg (by omega), List.drop_left' hlen]

theorem WireType.val_lt_8 (wt : WireType) : wt.val < 8 := by
  cases wt <;> simp [WireType.val]

theorem varint_len_add_low (t w : Nat) (hw : w < 8) :
    varint_len (t * 8 + w) = varint_len (t * 8) := by
  conv_lhs => rw [varint_len]
  conv_rhs => rw [varint_len]
  by_cases h : t * 8 < 128
  · rw [if_pos (by omega), if_pos h]
  · have h8 : (t * 8 + w) / 128 = t * 8 / 128 := by omega
    rw [if_neg (by omega), if_neg h, h8]

theorem encode_key_length (tag : Nat) (wt : WireType) (buf : List Nat) :
    (encode_key tag wt buf).length = buf.length + key_len tag := by
  simp [encode_key, encode_varint_length, key_len,
    varint_len_add_low tag wt.val (WireType.val_lt_8 wt)]

theorem key_len_one : key_len 1 = 1 := by
  simp [key_len, varint_len]

/-! ## Claim theorems -/

/-- C1: for every value of a wrapper-bound type (bool, u32, u64, i32, i64,
f32, f64, String, Vec of u8, Bytes, ByteStr, unit), `encoded_len` equals
exactly the number of bytes `encode_raw` appends to any buffer — in
particular to a fresh one — and bool's hard-coded `encoded_len` of 2 when
true matches the two bytes `bool::encode(1, ..)` emits. -/
theorem C1_size_encode_consistency :
    (∀ (v : Bool) (buf : List Nat),
      (bool_encode_raw v buf).length = buf.length + bool_encoded_len v)
    ∧ ((bool_encode_raw true []).length = 2 ∧ bool_encoded_len true = 2)
    ∧ (∀ (v : Nat) (buf : List Nat),
      (u32_encode_raw v buf).length = buf.length + u32_encoded_len v)
    ∧ (∀ (v : Nat) (buf : List Nat),
      (u64_encode_raw v buf).length = buf.length + u64_encoded_len v)
    ∧ (∀ (v : Int) (buf : List Nat),
      (i32_encode_raw v buf).length = buf.length + i32_encoded_len v)
    ∧ (∀ (v : Int) (buf : List Nat),
      (i64_encode_raw v buf).length = buf.length + i64_encoded_len v)
    ∧ (∀ (bits : Nat) (buf : List Nat),
      (f32_encode_raw bits buf).length = buf.length + f32_encoded_len bits)
    ∧ (∀ (bits : Nat) (buf : List Nat),
      (f64_encode_raw bits buf).length = buf.length + f64_encoded_len bits)
    ∧ (∀ (s : RustString) (buf : List Nat),
      (string_encode_raw s buf).length = buf.length + string_encoded_len s)
    ∧ (∀ (v : List Nat) (buf : List Nat),
      (vec_u8_encode_raw v buf).length = buf.length + vec_u8_encoded_len v)
    ∧ (∀ (v : BytesView) (buf : List Nat),
      (bytes_value_encode_raw v buf).length = buf.length + bytes_value_encoded_len v)
    ∧ (∀ (v : ByteStr .Checked) (buf : List Nat),
      (byte_str_encode_raw v buf).length = buf.length + byte_str_encoded_len v)
    ∧ (∀ buf : List Nat,
      (unit_encode_raw () buf).length = buf.length + unit_encoded_len ()) := by
  refine ⟨?_, ⟨?_, ?_⟩, ?_, ?_, ?_, ?_, ?_, ?_, ?_, ?_, ?_, ?_, ?_⟩
  · intro v buf
    cases v with
    | false => simp [bool_encode_raw, bool_encoded_len]
    | true =>
      simp only [bool_encode_raw, bool_encoded_len, if_pos, pbbool.encode,
        List.length_append, encode_key_length, key_len_one]
      simp
  · simp only [bool_encode_raw, if_pos, pbbool.encode, List.length_append,
      encode_key_length, key_len_one]
    simp
  · rfl
  · intro v buf
    by_cases h : v = 0
    · simp [u32_encode_raw, u32_encoded_len, h]
    · simp [u32_encode_raw, u32_encoded_len, h, uint32.encode,
        uint32.encoded_len, encode_key_length, encode_varint_length]
      omega
  · intro v buf
    by_cases h : v = 0
    · simp [u64_encode_raw, u64_encoded_len, h]
    · simp [u64_encode_raw, u64_encoded_len, h, uint64.encode,
        uint64.encoded_len, encode_key_length, encode_varint_length]
      omega
  · intro v buf
    by_cases h : v = 0
    · simp [i32_encode_raw, i32_encoded_len, h]
    · simp [i32_encode_raw, i32_encoded_len, h, int32.encode,
        int32.encoded_len, encode_key_length, encode_varint_length]
      omega
  · intro v buf
    by_cases h : v = 0
    · simp [i64_encode_raw, i64_encoded_len, h]
    · simp [i64_encode_raw, i64_encoded_len, h, int64.encode,
        int64.encoded_len, encode_key_length, encode_varint_length]
      omega
  · intro bits buf
    by_cases h : rust_f32_ne bits 0 = true
    · simp [f32_encode_raw, f32_encoded_len, h, float.encode,
        float.encoded_len, encode_key_length, le_bytes_length]
      omega
    · simp only [Bool.not_eq_true] at h
      simp [f32_encode_raw, f32_encoded_len, h]
  · intro bits buf
    by_cases h : rust_f64_ne bits 0 = true
    · simp [f64_encode_raw, f64_encoded_len, h, double.encode,
        double.encoded_len, encode_key_length, le_bytes_length]
      omega
    · simp only [Bool.not_eq_true] at h
      simp [f64_encode_raw, f64_encoded_len, h]
  · intro s buf
    by_cases h : s.val = []
    · simp [string_encode_raw, string_encoded_len, rust_string_is_empty, h]
    · simp [string_encode_raw, string_encoded_len, rust_string_is_empty, h,
        pbstring.encode, pbstring.encoded_len, encode_key_length,
        encode_varint_length]
      omega
  · intro v buf
    by_cases h : v = []
    · simp [vec_u8_encode_raw, vec_u8_encoded_len, h]
    · simp [vec_u8_encode_raw, vec_u8_encoded_len, h,
        pbbytes.encode, pbbytes.encoded_len, encode_key_length,
        encode_varint_length]
      omega
  · intro v buf
    by_cases h : v.len = 0
    · simp [bytes_value_encode_raw, bytes_value_encoded_len, h]
    · simp [bytes_value_encode_raw, bytes_value_encoded_len, h,
        pbbytes.encode, pbbytes.encoded_len, encode_key_length,
        encode_varint_length]
      omega
  · intro v buf
    by_cases h : v.buf.len = 0
    · simp [byte_str_encode_raw, byte_str_encoded_len, ByteStr.is_empty,
        ByteStr.len, h]
    · simp [byte_str_encode_raw, byte_str_encoded_len, ByteStr.is_empty,
        ByteStr.len, h, pbbytes.encode, pbbytes.encoded_len,
        encode_key_length, encode_varint_length]
      omega
  · intro buf
    simp [unit_encode_raw, unit_encoded_len]

/-- C3: for every wrapper-bound scalar type, `encode_raw` of the type's
default value (false, 0, the `0.0` bit pattern, empty string, empty bytes)
appends zero bytes to any buffer, and `encoded_len` of the default value
returns 0. -/
theorem C3_default_omission :
    (∀ buf : List Nat, bool_encode_raw false buf = buf ∧ bool_encoded_len false = 0)
    ∧ (∀ buf : List Nat, u32_encode_raw 0 buf = buf ∧ u32_encoded_len 0 = 0)
    ∧ (∀ buf : List Nat, u64_encode_raw 0 buf = buf ∧ u64_encoded_len 0 = 0)
    ∧ (∀ buf : List Nat, i32_encode_raw 0 buf = buf ∧ i32_encoded_len 0 = 0)
    ∧ (∀ buf : List Nat, i64_encode_raw 0 buf = buf ∧ i64_encoded_len 0 = 0)
    ∧ (∀ buf : List Nat, f32_encode_raw 0 buf = buf ∧ f32_encoded_len 0 = 0)
    ∧ (∀ buf : List Nat, f64_encode_raw 0 buf = buf ∧ f64_encoded_len 0 = 0)
    ∧ (∀ buf : List Nat,
      string_encode_raw rust_string_default buf = buf
        ∧ string_encoded_len rust_string_default = 0)
    ∧ (∀ buf : List Nat, vec_u8_encode_raw [] buf = buf ∧ vec_u8_encoded_len [] = 0)
    ∧ (∀ buf : List Nat,
      bytes_value_encode_raw BytesView.emptyBytes buf = buf
        ∧ bytes_value_encoded_len BytesView.emptyBytes = 0)
    ∧ (∀ buf : List Nat,
      byte_str_encode_raw (byte_str_default .Checked) buf = buf
        ∧ byte_str_encoded_len (byte_str_default .Checked) = 0)
    ∧ (∀ buf : List Nat,
      byte_str_unchecked_encode_raw (byte_str_default .Unchecked) buf = buf
        ∧ byte_str_unchecked_encoded_len (byte_str_default .Unchecked) = 0)
    ∧ (∀ buf : List Nat, unit_encode_raw () buf = buf ∧ unit_encoded_len () = 0) := by
  have hf32 : rust_f32_ne 0 0 = false := by decide
  have hf64 : rust_f64_ne 0 0 = false := by decide
  refine ⟨?_, ?_, ?_, ?_, ?_, ?_, ?_, ?_, ?_, ?_, ?_, ?_, ?_⟩ <;> intro buf
  · exact ⟨by simp [bool_encode_raw], by simp [bool_encoded_len]⟩
  · exact ⟨by simp [u32_encode_raw], by simp [u32_encoded_len]⟩
  · exact ⟨by simp [u64_encode_raw], by simp [u64_encoded_len]⟩
  · exact ⟨by simp [i32_encode_raw], by simp [i32_encoded_len]⟩
  · exact ⟨by simp [i64_encode_raw], by simp [i64_encoded_len]⟩
  · exact ⟨by simp [f32_encode_raw, hf32], by simp [f32_encoded_len, hf32]⟩
  · exact ⟨by simp [f64_encode_raw, hf64], by simp [f64_encoded_len, hf64]⟩
  · exact ⟨by simp [string_encode_raw, rust_string_is_empty, rust_string_default],
      by simp [string_encoded_len, rust_string_is_empty, rust_string_default]⟩
  · exact ⟨by simp [vec_u8_encode_raw], by simp [vec_u8_encoded_len]⟩
  · exact ⟨by simp [bytes_value_encode_raw, BytesView.emptyBytes],
      by simp [bytes_value_encoded_len, BytesView.emptyBytes]⟩
  · exact ⟨by simp [byte_str_encode_raw, ByteStr.is_empty, ByteStr.len,
        byte_str_default, BytesView.emptyBytes],
      by simp [byte_str_encoded_len, ByteStr.is_empty, ByteStr.len,
        byte_str_default, BytesView.emptyBytes]⟩
  · exact ⟨by simp [byte_str_unchecked_encode_raw, ByteStr.is_empty, ByteStr.len,
        byte_str_default, BytesView.emptyBytes],
      by simp [byte_str_unchecked_encoded_len, ByteStr.is_empty, ByteStr.len,
        byte_str_default, BytesView.emptyBytes]⟩
  · exact ⟨rfl, rfl⟩

/-- C4 counterexample: with the input stream closed (no bytes left), the
length-prefix read fails and the driver panics with the message
"input closed" (`read_exact(..).expect("input closed")` in `main`); it does
not perform a clean process exit, contrary to the claim. -/
theorem C4_counterexample :
    main_iteration [] = .panicked "input closed"
      ∧ main_iteration [] ≠ .cleanExit := by
  constructor
  · rfl
  · decide

/-- C4 amended: when the read of the 4-byte little-endian length prefix
fails because the input stream is closed (fewer than 4 bytes remain), the
driver terminates the loop by panicking with the message "input closed" — an
abnormal termination, not a clean process exit. -/
theorem C4_prefix_read_failure_panics (input : List Nat)
    (h : input.length < 4) : main_iteration input = .panicked "input closed" := by
  simp [main_iteration, h]

/-- C4 witness: the amended claim at the empty input stream. -/
theorem C4_prefix_read_failure_panics_witness :
    main_iteration [] = .panicked "input closed" :=
  C4_prefix_read_failure_panics [] (by decide)

theorem wire_type_of_val (wt : WireType) : wire_type_of wt.val = .ok wt := by
  cases wt <;> rfl

/-- C8: the unit type's message implementation always encodes nothing and
accepts nothing: `encode_raw` appends zero bytes to every buffer,
`encoded_len` returns 0, `merge_field` defers every field — any tag, any
wire type — to `skip_field` leaving the unit value unchanged, and hence a
buffer holding one well-formed field of any non-group wire type decodes to
`()` with the field ignored. -/
theorem C8_unit_message :
    (∀ buf : List Nat, unit_encode_raw () buf = buf)
    ∧ unit_encoded_len () = 0
    ∧ (∀ (tag : Nat) (wt : WireType) (buf : List Nat),
        unit_merge_field () tag wt buf =
          Except.map (fun rest => ((), rest)) (skip_field wt tag buf))
    ∧ (∀ (t : Nat) (p : SkippablePayload), t ≠ 0 →
        unit_decode (field_bytes t p) = .ok ()) := by
  refine ⟨fun _ => rfl, rfl, fun _ _ _ => rfl, ?_⟩
  intro t p ht
  have hm : unit_merge_field () t p.wireType p.toBytes = .ok ((), []) := by
    have hs := skip_field_payload p t []
    rw [List.append_nil] at hs
    simp [unit_merge_field, hs, Except.map]
  have hv := WireType.val_lt_8 p.wireType
  have hwt : wire_type_of ((t * 8 + p.wireType.val) % 8) = .ok p.wireType := by
    have hmod : (t * 8 + p.wireType.val) % 8 = p.wireType.val := by omega
    rw [hmod, wire_type_of_val]
  have hdiv : (t * 8 + p.wireType.val) / 8 = t := by omega
  have := message_decode_single unit_merge_field () () (t * 8 + p.wireType.val)
    t p.wireType p.toBytes hwt hdiv ht hm
  simpa [unit_decode, field_bytes, encode_key] using this

/-- C8 witness: the decode conjunct at tag 5 with a Fixed32 payload. -/
theorem C8_unit_message_witness :
    unit_decode (field_bytes 5 (.fixed32 7)) = .ok () :=
  C8_unit_message.2.2.2 5 (.fixed32 7) (by decide)

/-- C5: for every wrapper-bound type, `merge_field` called with any tag
other than 1 defers to `skip_field`; consequently a byte stream holding one
unrecognized well-formed field (any tag at least 2, any non-group wire type)
followed by a tag-1 field decodes successfully, ignoring the unknown field
and still merging the tag-1 occurrence (shown on the bool wrapper). -/
theorem C5_unknown_field_forward_compat :
    (∀ (v : Bool) (t : Nat) (wt : WireType) (buf : List Nat), t ≠ 1 →
      bool_merge_field v t wt buf =
        Except.map (fun rest => (v, rest)) (skip_field wt t buf))
    ∧ (∀ (v : Nat) (t : Nat) (wt : WireType) (buf : List Nat), t ≠ 1 →
      u32_merge_field v t wt buf =
        Except.map (fun rest => (v, rest)) (skip_field wt t buf))
    ∧ (∀ (v : Nat) (t : Nat) (wt : WireType) (buf : List Nat), t ≠ 1 →
      u64_merge_field v t wt buf =
        Except.map (fun rest => (v, rest)) (skip_field wt t buf))
    ∧ (∀ (v : Int) (t : Nat) (wt : WireType) (buf : List Nat), t ≠ 1 →
      i32_merge_field v t wt buf =
        Except.map (fun rest => (v, rest)) (skip_field wt t buf))
    ∧ (∀ (v : Int) (t : Nat) (wt : WireType) (buf : List Nat), t ≠ 1 →
      i64_merge_field v t wt buf =
        Except.map (fun rest => (v, rest)) (skip_field wt t buf))
    ∧ (∀ (bits : Nat) (t : Nat) (wt : WireType) (buf : List Nat), t ≠ 1 →
      f32_merge_field bits t wt buf =
        Except.map (fun rest => (bits, rest)) (skip_field wt t buf))
    ∧ (∀ (bits : Nat) (t : Nat) (wt : WireType) (buf : List Nat), t ≠ 1 →
      f64_merge_field bits t wt buf =
        Except.map (fun rest => (bits, rest)) (skip_field wt t buf))
    ∧ (∀ (s : RustString) (t : Nat) (wt : WireType) (buf : List Nat), t ≠ 1 →
      string_merge_field s t wt buf =
        Except.map (fun rest => (s, rest)) (skip_field wt t buf))
    ∧ (∀ (v : List Nat) (t : Nat) (wt : WireType) (buf : List Nat), t ≠ 1 →
      vec_u8_merge_field v t wt buf =
        Except.map (fun rest => (v, rest)) (skip_field wt t buf))
    ∧ (∀ (v : BytesView) (t : Nat) (wt : WireType) (buf : List Nat), t ≠ 1 →
      bytes_value_merge_field v t wt buf =
        Except.map (fun rest => (v, rest)) (skip_field wt t buf))
    ∧ (∀ (v : ByteStr .Checked) (t : Nat) (wt : WireType) (buf : List Nat), t ≠ 1 →
      byte_str_merge_field v t wt buf =
        Except.map (fun rest => (v, rest)) (skip_field wt t buf))
    ∧ (∀ (v : ByteStr .Unchecked) (t : Nat) (wt : WireType) (buf : List Nat), t ≠ 1 →
      byte_str_unchecked_merge_field v t wt buf =
        Except.map (fun rest => (v, rest)) (skip_field wt t buf))
    ∧ (∀ (t : Nat) (p : SkippablePayload) (b : Bool), 2 ≤ t →
      bool_decode (field_bytes t p ++ pbbool.encode 1 b []) = .ok b) := by
  refine ⟨?_, ?_, ?_, ?_, ?_, ?_, ?_, ?_, ?_, ?_, ?_, ?_, ?_⟩
  · intro v t wt buf h
    simp [bool_merge_field, h]
  · intro v t wt buf h
    simp [u32_merge_field, h]
  · intro v t wt buf h
    simp [u64_merge_field, h]
  · intro v t wt buf h
    simp [i32_merge_field, h]
  · intro v t wt buf h
    simp [i64_merge_field, h]
  · intro v t wt buf h
    simp [f32_merge_field, h]
  · intro v t wt buf h
    simp [f64_merge_field, h]
  · intro v t wt buf h
    simp [string_merge_field, h]
  · intro v t wt buf h
    simp [vec_u8_merge_field, h]
  · intro v t wt buf h
    simp [bytes_value_merge_field, h]
  · intro v t wt buf h
    simp [byte_str_merge_field, h]
  · intro v t wt buf h
    simp [byte_str_unchecked_merge_field, h]
  · intro t p b ht
    have ht1 : t ≠ 1 := by omega
    have ht0 : t ≠ 0 := by omega
    have hv := WireType.val_lt_8 p.wireType
    have hw1 : wire_type_of ((t * 8 + p.wireType.val) % 8) = .ok p.wireType := by
      have hmod : (t * 8 + p.wireType.val) % 8 = p.wireType.val := by omega
      rw [hmod, wire_type_of_val]
    have hd1 : (t * 8 + p.wireType.val) / 8 = t := by omega
    have hm1 : bool_merge_field false t p.wireType
        (p.toBytes ++ (encode_varint 8 ++ [if b then 1 else 0])) =
        .ok (false, encode_varint 8 ++ [if b then 1 else 0]) := by
      simp [bool_merge_field, ht1, skip_field_payload, Except.map]
    have hm2 : bool_merge_field false 1 .Varint [if b then 1 else 0] =
        .ok (b, []) := by
      cases b <;> rfl
    have hfin := message_decode_two bool_merge_field false false b
      (t * 8 + p.wireType.val) t p.wireType p.toBytes 8 1 .Varint
      [if b then 1 else 0] hw1 hd1 ht0 rfl rfl (by decide) hm1 hm2
    simpa [bool_decode, field_bytes, encode_key, pbbool.encode, WireType.val,
      List.append_assoc] using hfin

/-- C5 witness: the decode conjunct at tag 3 with a length-delimited unknown
field, followed by the tag-1 bool field set to true; and the defer conjunct
for `String` at tag 2 with the Varint wire type on an empty buffer. -/
theorem C5_unknown_field_forward_compat_witness :
    bool_decode (field_bytes 3 (.lengthDelimited [1, 2, 3]) ++ pbbool.encode 1 true [])
        = .ok true
      ∧ string_merge_field rust_string_default 2 .Varint [0] =
        Except.map (fun rest => (rust_string_default, rest))
          (skip_field .Varint 2 [0]) :=
  ⟨C5_unknown_field_forward_compat.2.2.2.2.2.2.2.2.2.2.2.2 3
      (.lengthDelimited [1, 2, 3]) true (by decide),
    C5_unknown_field_forward_compat.2.2.2.2.2.2.2.1 rust_string_default 2
      .Varint [0] (by decide)⟩

theorem rust_f64_ne_zero_of (bits : Nat) (h0 : bits ≠ 0) (h63 : bits ≠ 2 ^ 63) :
    rust_f64_ne bits 0 = true := by
  simp [rust_f64_ne, rust_f64_eq, f64_is_nan, f64_is_zero, f64_exp, f64_frac,
    h0, h63]
  omega

theorem rust_f64_eq_self (bits : Nat) (h : f64_is_nan bits = false) :
    rust_f64_eq bits bits = true := by
  by_cases hz : f64_is_zero bits = true <;>
    simp [rust_f64_eq, h, hz]

theorem rust_f32_ne_zero_of (bits : Nat) (h0 : bits ≠ 0) (h31 : bits ≠ 2 ^ 31) :
    rust_f32_ne bits 0 = true := by
  simp [rust_f32_ne, rust_f32_eq, f32_is_nan, f32_is_zero, f32_exp, f32_frac,
    h0, h31]
  omega

theorem rust_f32_eq_self (bits : Nat) (h : f32_is_nan bits = false) :
    rust_f32_eq bits bits = true := by
  by_cases hz : f32_is_zero bits = true <;>
    simp [rust_f32_eq, h, hz]

theorem i64_as_u64_lt (v : Int) : i64_as_u64 v < 2 ^ 64 := by
  unfold i64_as_u64
  omega

theorem u64_as_i64_i64_as_u64 (v : Int) (hlo : -2 ^ 63 ≤ v) (hhi : v < 2 ^ 63) :
    u64_as_i64 (i64_as_u64 v % 2 ^ 64) = v := by
  rw [Nat.mod_eq_of_lt (i64_as_u64_lt v)]
  simp only [u64_as_i64, i64_as_u64]
  split <;> omega

theorem i64_as_u64_low_bits (v : Int) (hlo : -2 ^ 31 ≤ v) (hhi : v < 2 ^ 31) :
    u32_as_i32 (i64_as_u64 v % 2 ^ 32) = v := by
  simp only [u32_as_i32, i64_as_u64]
  split <;> omega

theorem f64_merge_le_bytes (bits : Nat) (h : bits < 2 ^ 64) :
    f64_merge_field 0 1 .SixtyFourBit (le_bytes 8 bits) = .ok (bits, []) := by
  have hlen : (le_bytes 8 bits).length = 8 := le_bytes_length 8 bits
  have hfl : from_le_bytes (le_bytes 8 bits) = bits :=
    from_le_bytes_le_bytes 8 bits (by norm_num at h ⊢; omega)
  have hnl : ¬((le_bytes 8 bits).length < 8) := by omega
  have htk : (le_bytes 8 bits).take 8 = le_bytes 8 bits :=
    List.take_of_length_le (by omega)
  have hdr : (le_bytes 8 bits).drop 8 = [] :=
    List.drop_of_length_le (by omega)
  simp [f64_merge_field, double.merge, hnl, htk, hdr, hfl]

theorem f32_merge_le_bytes (bits : Nat) (h : bits < 2 ^ 32) :
    f32_merge_field 0 1 .ThirtyTwoBit (le_bytes 4 bits) = .ok (bits, []) := by
  have hlen : (le_bytes 4 bits).length = 4 := le_bytes_length 4 bits
  have hfl : from_le_bytes (le_bytes 4 bits) = bits :=
    from_le_bytes_le_bytes 4 bits (by norm_num at h ⊢; omega)
  have hnl : ¬((le_bytes 4 bits).length < 4) := by omega
  have htk : (le_bytes 4 bits).take 4 = le_bytes 4 bits :=
    List.take_of_length_le (by omega)
  have hdr : (le_bytes 4 bits).drop 4 = [] :=
    List.drop_of_length_le (by omega)
  simp [f32_merge_field, float.merge, hnl, htk, hdr, hfl]

theorem f64_roundtrip_bits (bits : Nat) (h64 : bits < 2 ^ 64)
    (hz : bits ≠ 2 ^ 63) : f64_decode (f64_encode_raw bits []) = .ok bits := by
  by_cases h0 : bits = 0
  · subst h0
    rfl
  · have hg := rust_f64_ne_zero_of bits h0 hz
    have := message_decode_single f64_merge_field 0 bits 9 1 .SixtyFourBit
      (le_bytes 8 bits) rfl rfl (by decide) (f64_merge_le_bytes bits h64)
    simpa [f64_decode, f64_encode_raw, hg, double.encode, encode_key,
      WireType.val, List.append_assoc] using this

theorem f32_roundtrip_bits (bits : Nat) (h32 : bits < 2 ^ 32)
    (hz : bits ≠ 2 ^ 31) : f32_decode (f32_encode_raw bits []) = .ok bits := by
  by_cases h0 : bits = 0
  · subst h0
    rfl
  · have hg := rust_f32_ne_zero_of bits h0 hz
    have := message_decode_single f32_merge_field 0 bits 13 1 .ThirtyTwoBit
      (le_bytes 4 bits) rfl rfl (by decide) (f32_merge_le_bytes bits h32)
    simpa [f32_decode, f32_encode_raw, hg, float.encode, encode_key,
      WireType.val, List.append_assoc] using this

theorem bool_roundtrip (b : Bool) : bool_decode (bool_encode_raw b []) = .ok b := by
  cases b with
  | false => rfl
  | true =>
    have := message_decode_single bool_merge_field false true 8 1 .Varint [1]
      rfl rfl (by decide) rfl
    simpa [bool_decode, bool_encode_raw, pbbool.encode, encode_key,
      WireType.val, List.append_assoc] using this

theorem u32_roundtrip (v : Nat) (hv : v < 2 ^ 32) :
    u32_decode (u32_encode_raw v []) = .ok v := by
  by_cases h : v = 0
  · subst h
    rfl
  · have hm : u32_merge_field 0 1 .Varint (encode_varint v) = .ok (v, []) := by
      simp [u32_merge_field, uint32.merge, decode_varint_encode]
      omega
    have := message_decode_single u32_merge_field 0 v 8 1 .Varint
      (encode_varint v) rfl rfl (by decide) hm
    simpa [u32_decode, u32_encode_raw, h, uint32.encode, encode_key,
      WireType.val, List.append_assoc] using this

theorem u64_roundtrip (v : Nat) (hv : v < 2 ^ 64) :
    u64_decode (u64_encode_raw v []) = .ok v := by
  by_cases h : v = 0
  · subst h
    rfl
  · have hm : u64_merge_field 0 1 .Varint (encode_varint v) = .ok (v, []) := by
      simp [u64_merge_field, uint64.merge, decode_varint_encode]
      omega
    have := message_decode_single u64_merge_field 0 v 8 1 .Varint
      (encode_varint v) rfl rfl (by decide) hm
    simpa [u64_decode, u64_encode_raw, h, uint64.encode, encode_key,
      WireType.val, List.append_assoc] using this

theorem i32_roundtrip (v : Int) (hlo : -2 ^ 31 ≤ v) (hhi : v < 2 ^ 31) :
    i32_decode (i32_encode_raw v []) = .ok v := by
  by_cases h : v = 0
  · subst h
    rfl
  · have hm : i32_merge_field 0 1 .Varint (encode_varint (i64_as_u64 v)) =
        .ok (v, []) := by
      simp [i32_merge_field, int32.merge, decode_varint_encode]
      exact i64_as_u64_low_bits v hlo hhi
    have := message_decode_single i32_merge_field 0 v 8 1 .Varint
      (encode_varint (i64_as_u64 v)) rfl rfl (by decide) hm
    simpa [i32_decode, i32_encode_raw, h, int32.encode, encode_key,
      WireType.val, List.append_assoc] using this

theorem i64_roundtrip (v : Int) (hlo : -2 ^ 63 ≤ v) (hhi : v < 2 ^ 63) :
    i64_decode (i64_encode_raw v []) = .ok v := by
  by_cases h : v = 0
  · subst h
    rfl
  · have hm : i64_merge_field 0 1 .Varint (encode_varint (i64_as_u64 v)) =
        .ok (v, []) := by
      simp [i64_merge_field, int64.merge, decode_varint_encode]
      exact u64_as_i64_i64_as_u64 v hlo hhi
    have := message_decode_single i64_merge_field 0 v 8 1 .Varint
      (encode_varint (i64_as_u64 v)) rfl rfl (by decide) hm
    simpa [i64_decode, i64_encode_raw, h, int64.encode, encode_key,
      WireType.val, List.append_assoc] using this

theorem string_roundtrip (s : RustString) :
    string_decode (string_encode_raw s []) = .ok s := by
  by_cases h : s.val = []
  · rw [show s = rust_string_default from Subtype.ext h]
    rfl
  · have hm0 : pbstring.merge .LengthDelimited rust_string_default
        (encode_varint s.val.length ++ s.val) = .ok (s, []) := by
      simp only [pbstring.merge, decode_varint_append]
      rw [if_pos (Nat.le_refl _)]
      split
      · rename_i hv
        rw [show (⟨List.take s.val.length s.val, hv⟩ : RustString) = s from
          Subtype.ext (List.take_length s.val), List.drop_length]
      · rename_i hv
        rw [List.take_length] at hv
        exact absurd s.property (by simp [hv])
    have hm : string_merge_field rust_string_default 1 .LengthDelimited
        (encode_varint s.val.length ++ s.val) = .ok (s, []) := by
      simpa [string_merge_field] using hm0
    have hie : s.val.isEmpty = false := by
      cases hsv : s.val with
      | nil => exact absurd hsv h
      | cons a t => rfl
    have := message_decode_single string_merge_field rust_string_default s 10 1
      .LengthDelimited (encode_varint s.val.length ++ s.val) rfl rfl
      (by decide) hm
    simpa [string_decode, string_encode_raw, rust_string_is_empty, hie,
      pbstring.encode, encode_key, WireType.val, List.append_assoc] using this

theorem vec_u8_roundtrip (v : List Nat) :
    vec_u8_decode (vec_u8_encode_raw v []) = .ok v := by
  by_cases h : v = []
  · subst h
    rfl
  · have hm0 : pbbytes.merge_one_copy .LengthDelimited []
        (encode_varint v.length ++ v) = .ok (v, []) := by
      simp only [pbbytes.merge_one_copy, decode_varint_append]
      rw [if_pos (Nat.le_refl _)]
      simp only [List.take_length, List.drop_length]
    have hm : vec_u8_merge_field [] 1 .LengthDelimited
        (encode_varint v.length ++ v) = .ok (v, []) := by
      simpa [vec_u8_merge_field] using hm0
    have hie : v.isEmpty = false := by
      cases hsv : v with
      | nil => exact absurd hsv h
      | cons a t => rfl
    have := message_decode_single vec_u8_merge_field [] v 10 1
      .LengthDelimited (encode_varint v.length ++ v) rfl rfl (by decide) hm
    simpa [vec_u8_decode, vec_u8_encode_raw, hie, pbbytes.encode, encode_key,
      WireType.val, List.append_assoc] using this

theorem bytes_value_roundtrip (v : BytesView) :
    Except.map BytesView.toList (bytes_value_decode (bytes_value_encode_raw v []))
      = .ok v.toList := by
  by_cases h : v.len = 0
  · have ht : v.toList = [] := by
      have := BytesView.toList_length v
      rw [h] at this
      exact List.length_eq_zero.mp this
    have henc : bytes_value_encode_raw v [] = [] := by
      simp [bytes_value_encode_raw, h]
    rw [henc, ht]
    rfl
  · have hm0 : pbbytes.merge .LengthDelimited BytesView.emptyBytes
        (encode_varint v.toList.length ++ v.toList) =
        .ok (BytesView.ofList v.toList, []) := by
      simp only [pbbytes.merge, decode_varint_append]
      rw [if_pos (Nat.le_refl _)]
      simp only [List.take_length, List.drop_length]
    have hm : bytes_value_merge_field BytesView.emptyBytes 1 .LengthDelimited
        (encode_varint v.toList.length ++ v.toList) =
        .ok (BytesView.ofList v.toList, []) := by
      simpa [bytes_value_merge_field] using hm0
    have := message_decode_single bytes_value_merge_field BytesView.emptyBytes
      (BytesView.ofList v.toList) 10 1 .LengthDelimited
      (encode_varint v.toList.length ++ v.toList) rfl rfl (by decide) hm
    have hdec : bytes_value_decode (bytes_value_encode_raw v []) =
        .ok (BytesView.ofList v.toList) := by
      simpa [bytes_value_decode, bytes_value_encode_raw, h, pbbytes.encode,
        encode_key, WireType.val, List.append_assoc] using this
    rw [hdec]
    simp [Except.map, BytesView.toList_ofList]

theorem byte_str_roundtrip (v : ByteStr .Checked)
    (hval : utf8_valid v.as_str = true) :
    Except.map ByteStr.as_str (byte_str_decode (byte_str_encode_raw v []))
      = .ok v.as_str := by
  simp only [ByteStr.as_str] at hval ⊢
  by_cases h : v.buf.len = 0
  · have ht : v.buf.toList = [] := by
      have := BytesView.toList_length v.buf
      rw [h] at this
      exact List.length_eq_zero.mp this
    have henc : byte_str_encode_raw v [] = [] := by
      simp [byte_str_encode_raw, ByteStr.is_empty, ByteStr.len, h]
    rw [henc, ht]
    rfl
  · have hm0 : byte_str.merge .LengthDelimited (byte_str_default .Checked)
        (encode_varint v.buf.toList.length ++ v.buf.toList) =
        .ok (⟨BytesView.ofList v.buf.toList⟩, []) := by
      simp only [byte_str.merge, decode_varint_append]
      rw [if_pos (Nat.le_refl _)]
      simp only [List.take_length, List.drop_length]
      rw [if_pos hval]
    have hm : byte_str_merge_field (byte_str_default .Checked) 1
        .LengthDelimited (encode_varint v.buf.toList.length ++ v.buf.toList) =
        .ok (⟨BytesView.ofList v.buf.toList⟩, []) := by
      simpa [byte_str_merge_field] using hm0
    have := message_decode_single byte_str_merge_field (byte_str_default .Checked)
      (⟨BytesView.ofList v.buf.toList⟩ : ByteStr .Checked) 10 1 .LengthDelimited
      (encode_varint v.buf.toList.length ++ v.buf.toList) rfl rfl (by decide) hm
    have hdec : byte_str_decode (byte_str_encode_raw v []) =
        .ok (⟨BytesView.ofList v.buf.toList⟩ : ByteStr .Checked) := by
      simpa [byte_str_decode, byte_str_encode_raw, ByteStr.is_empty,
        ByteStr.len, h, pbbytes.encode, encode_key, WireType.val,
        List.append_assoc] using this
    rw [hdec]
    simp [Except.map, ByteStr.as_str, BytesView.toList_ofList]

theorem byte_str_unchecked_roundtrip (v : ByteStr .Unchecked) :
    Except.map ByteStr.as_str
        (byte_str_unchecked_decode (byte_str_unchecked_encode_raw v []))
      = .ok v.as_str := by
  simp only [ByteStr.as_str]
  by_cases h : v.buf.len = 0
  · have ht : v.buf.toList = [] := by
      have := BytesView.toList_length v.buf
      rw [h] at this
      exact List.length_eq_zero.mp this
    have henc : byte_str_unchecked_encode_raw v [] = [] := by
      simp [byte_str_unchecked_encode_raw, ByteStr.is_empty, ByteStr.len, h]
    rw [henc, ht]
    rfl
  · have hm0 : byte_str_unchecked.merge .LengthDelimited
        (byte_str_default .Unchecked)
        (encode_varint v.buf.toList.length ++ v.buf.toList) =
        .ok (⟨BytesView.ofList v.buf.toList⟩, []) := by
      simp only [byte_str_unchecked.merge, decode_varint_append]
      rw [if_pos (Nat.le_refl _)]
      simp only [List.take_length, List.drop_length]
    have hm : byte_str_unchecked_merge_field (byte_str_default .Unchecked) 1
        .LengthDelimited (encode_varint v.buf.toList.length ++ v.buf.toList) =
        .ok (⟨BytesView.ofList v.buf.toList⟩, []) := by
      simpa [byte_str_unchecked_merge_field] using hm0
    have := message_decode_single byte_str_unchecked_merge_field
      (byte_str_default .Unchecked)
      (⟨BytesView.ofList v.buf.toList⟩ : ByteStr .Unchecked) 10 1
      .LengthDelimited (encode_varint v.buf.toList.length ++ v.buf.toList)
      rfl rfl (by decide) hm
    have hdec : byte_str_unchecked_decode (byte_str_unchecked_encode_raw v []) =
        .ok (⟨BytesView.ofList v.buf.toList⟩ : ByteStr .Unchecked) := by
      simpa [byte_str_unchecked_decode, byte_str_unchecked_encode_raw,
        ByteStr.is_empty, ByteStr.len, h, pbbytes.encode, encode_key,
        WireType.val, List.append_assoc] using this
    rw [hdec]
    simp [Except.map, ByteStr.as_str, BytesView.toList_ofList]

/-- C2 counterexample: the claim includes NaN among the values for which
`decode(encode(v)) == v`.  At the canonical quiet-NaN bit pattern
`0x7FF8000000000000` the round trip reproduces the bit pattern exactly, yet
the decoded value is not equal to the original under Rust's `==` on `f64`
(IEEE-754 equality), because NaN compares unequal to itself — so the claim,
read with the equality the code itself uses, is false at NaN. -/
theorem C2_counterexample_nan :
    f64_decode (f64_encode_raw 9221120237041090560 []) =
        .ok 9221120237041090560
      ∧ rust_f64_eq 9221120237041090560 9221120237041090560 = false := by
  have hev : encode_varint 9 = [9] := by
    rw [encode_varint]
    simp
  have hg : rust_f64_ne 9221120237041090560 0 = true := by decide
  have henc : f64_encode_raw 9221120237041090560 [] =
      [9, 0, 0, 0, 0, 0, 0, 248, 127] := by
    rw [f64_encode_raw, if_pos hg]
    simp [double.encode, encode_key, WireType.val, hev, le_bytes]
  constructor
  · rw [henc]
    decide
  · decide

/-- C2 (amended): decoding the bytes produced by encoding `v` (starting from
the type's default value and merging until the buffer is exhausted) yields
`v` exactly for every value of the non-float wrapper-bound types; for
`f32`/`f64` the round trip reproduces the bit pattern exactly for every
value except negative zero (which encodes as the default and decodes as
positive zero), and the decoded value is `==`-equal to `v` for every
non-NaN value; a NaN round-trips to the identical bit pattern but compares
unequal under `==`. -/
theorem C2_roundtrip :
    (∀ b : Bool, bool_decode (bool_encode_raw b []) = .ok b)
    ∧ (∀ v : Nat, v < 2 ^ 32 → u32_decode (u32_encode_raw v []) = .ok v)
    ∧ (∀ v : Nat, v < 2 ^ 64 → u64_decode (u64_encode_raw v []) = .ok v)
    ∧ (∀ v : Int, -2 ^ 31 ≤ v → v < 2 ^ 31 →
        i32_decode (i32_encode_raw v []) = .ok v)
    ∧ (∀ v : Int, -2 ^ 63 ≤ v → v < 2 ^ 63 →
        i64_decode (i64_encode_raw v []) = .ok v)
    ∧ (∀ s : RustString, string_decode (string_encode_raw s []) = .ok s)
    ∧ (∀ v : List Nat, vec_u8_decode (vec_u8_encode_raw v []) = .ok v)
    ∧ (∀ v : BytesView,
        Except.map BytesView.toList
          (bytes_value_decode (bytes_value_encode_raw v [])) = .ok v.toList)
    ∧ (∀ bits : Nat, bits < 2 ^ 32 → bits ≠ 2 ^ 31 →
        f32_decode (f32_encode_raw bits []) = .ok bits)
    ∧ (∀ bits : Nat, bits < 2 ^ 32 → f32_is_nan bits = false →
        ∃ r, f32_decode (f32_encode_raw bits []) = .ok r
          ∧ rust_f32_eq r bits = true)
    ∧ (∀ bits : Nat, bits < 2 ^ 64 → bits ≠ 2 ^ 63 →
        f64_decode (f64_encode_raw bits []) = .ok bits)
    ∧ (∀ bits : Nat, bits < 2 ^ 64 → f64_is_nan bits = false →
        ∃ r, f64_decode (f64_encode_raw bits []) = .ok r
          ∧ rust_f64_eq r bits = true)
    ∧ (∀ v : ByteStr .Checked, utf8_valid v.as_str = true →
        Except.map ByteStr.as_str (byte_str_decode (byte_str_encode_raw v []))
          = .ok v.as_str)
    ∧ (∀ v : ByteStr .Unchecked,
        Except.map ByteStr.as_str
          (byte_str_unchecked_decode (byte_str_unchecked_encode_raw v []))
          = .ok v.as_str)
    ∧ unit_decode (unit_encode_raw () []) = .ok () := by
  refine ⟨bool_roundtrip, u32_roundtrip, u64_roundtrip, i32_roundtrip,
    i64_roundtrip, string_roundtrip, vec_u8_roundtrip, bytes_value_roundtrip,
    f32_roundtrip_bits, ?_, f64_roundtrip_bits, ?_, byte_str_roundtrip,
    byte_str_unchecked_roundtrip, rfl⟩
  · intro bits h hnan
    by_cases hz : bits = 2 ^ 31
    · subst hz
      refine ⟨0, ?_, by decide⟩
      have hg : rust_f32_ne 2147483648 0 = false := by decide
      rw [show f32_encode_raw (2 ^ 31) [] = [] by
        rw [f32_encode_raw, if_neg (by simp [hg])]]
      rfl
    · exact ⟨bits, f32_roundtrip_bits bits h hz, rust_f32_eq_self bits hnan⟩
  · intro bits h hnan
    by_cases hz : bits = 2 ^ 63
    · subst hz
      refine ⟨0, ?_, by decide⟩
      have hg : rust_f64_ne 9223372036854775808 0 = false := by decide
      rw [show f64_encode_raw (2 ^ 63) [] = [] by
        rw [f64_encode_raw, if_neg (by simp [hg])]]
      rfl
    · exact ⟨bits, f64_roundtrip_bits bits h hz, rust_f64_eq_self bits hnan⟩

/-- C2 witness: the amended round-trip theorem applied at concrete inputs
discharging each hypothesis — a u32, a u64, negative i32/i64 values, a
nonzero f32 and f64 bit pattern, negative zero in both widths, and a checked
UTF-8 buffer holding multi-byte text. -/
theorem C2_roundtrip_witness :
    u32_decode (u32_encode_raw 300 []) = .ok 300
    ∧ u64_decode (u64_encode_raw 1099511627776 []) = .ok 1099511627776
    ∧ i32_decode (i32_encode_raw (-5) []) = .ok (-5)
    ∧ i64_decode (i64_encode_raw (-7) []) = .ok (-7)
    ∧ f32_decode (f32_encode_raw 1069547520 []) = .ok 1069547520
    ∧ (∃ r, f32_decode (f32_encode_raw 2147483648 []) = .ok r
        ∧ rust_f32_eq r 2147483648 = true)
    ∧ f64_decode (f64_encode_raw 4607182418800017408 []) =
        .ok 4607182418800017408
    ∧ (∃ r, f64_decode (f64_encode_raw 9223372036854775808 []) = .ok r
        ∧ rust_f64_eq r 9223372036854775808 = true)
    ∧ Except.map ByteStr.as_str
        (byte_str_decode (byte_str_encode_raw
          (⟨⟨[104, 195, 169], 0, 3, by simp⟩⟩ : ByteStr .Checked) []))
        = .ok [104, 195, 169] :=
  ⟨C2_roundtrip.2.1 300 (by decide),
    C2_roundtrip.2.2.1 1099511627776 (by decide),
    C2_roundtrip.2.2.2.1 (-5) (by decide) (by decide),
    C2_roundtrip.2.2.2.2.1 (-7) (by decide) (by decide),
    C2_roundtrip.2.2.2.2.2.2.2.2.1 1069547520 (by decide) (by decide),
    C2_roundtrip.2.2.2.2.2.2.2.2.2.1 2147483648 (by decide) (by decide),
    C2_roundtrip.2.2.2.2.2.2.2.2.2.2.1 4607182418800017408 (by decide)
      (by decide),
    C2_roundtrip.2.2.2.2.2.2.2.2.2.2.2.1 9223372036854775808 (by decide)
      (by decide),
    C2_roundtrip.2.2.2.2.2.2.2.2.2.2.2.2.1
      (⟨⟨[104, 195, 169], 0, 3, by simp⟩⟩ : ByteStr .Checked) (by decide)⟩

/-- C6: `ByteStr::from_utf8` (the checked constructor) returns a `Utf8Error`
and constructs no buffer when the bytes are not valid UTF-8; on valid UTF-8
(including multi-byte sequences and the empty byte string) it succeeds and
the resulting buffer's `as_str` is exactly the original text. -/
theorem C6_from_utf8_checked :
    (∀ v : BytesView, utf8_valid v.toList = false →
      byte_str_from_utf8 v = .error ⟨⟩)
    ∧ (∀ v : BytesView, utf8_valid v.toList = true →
      byte_str_from_utf8 v = .ok ⟨v⟩
        ∧ ByteStr.as_str (⟨v⟩ : ByteStr .Checked) = v.toList) := by
  constructor
  · intro v h
    simp [byte_str_from_utf8, h]
  · intro v h
    exact ⟨by simp [byte_str_from_utf8, h], rfl⟩

/-- C6 witness: the invalid byte 0xFF fails; the two-code-point UTF-8 text
"hé" (bytes 104, 195, 169) and the empty byte string succeed, with `as_str`
returning the original bytes. -/
theorem C6_from_utf8_checked_witness :
    byte_str_from_utf8 ⟨[255], 0, 1, by decide⟩ = .error ⟨⟩
    ∧ byte_str_from_utf8 ⟨[104, 195, 169], 0, 3, by decide⟩ =
      .ok ⟨⟨[104, 195, 169], 0, 3, by decide⟩⟩
    ∧ ByteStr.as_str (⟨⟨[104, 195, 169], 0, 3, by decide⟩⟩ : ByteStr .Checked) =
      [104, 195, 169]
    ∧ byte_str_from_utf8 ⟨[], 0, 0, by decide⟩ = .ok ⟨⟨[], 0, 0, by decide⟩⟩ :=
  ⟨C6_from_utf8_checked.1 _ (by decide),
    (C6_from_utf8_checked.2 ⟨[104, 195, 169], 0, 3, by decide⟩ (by decide)).1,
    (C6_from_utf8_checked.2 ⟨[104, 195, 169], 0, 3, by decide⟩ (by decide)).2,
    (C6_from_utf8_checked.2 ⟨[], 0, 0, by decide⟩ (by decide)).1⟩

/-- C7: for any two `ByteStr` buffers of the same mode, equality, ordering,
and hashing are computed over the decoded string view (`as_str`), not the
raw byte storage: two buffers whose text is identical compare equal, compare
as `Ordering.eq`, and feed identical transcripts to any hasher, regardless
of their underlying allocations. -/
theorem C7_eq_ord_hash_over_str (m : Utf8Mode) (a b : ByteStr m)
    (h : a.as_str = b.as_str) :
    byte_str_eq a b = true ∧ byte_str_cmp a b = .eq
      ∧ byte_str_hash a = byte_str_hash b := by
  refine ⟨?_, ?_, ?_⟩
  · simp [byte_str_eq, h]
  · simp [byte_str_cmp, h, str_cmp_self]
  · simp [byte_str_hash, h]

/-- C7 witness: two buffers over different allocations and offsets exposing
the same text (bytes 104, 105). -/
theorem C7_eq_ord_hash_over_str_witness :
    byte_str_eq (⟨⟨[0, 104, 105, 0], 1, 2, by decide⟩⟩ : ByteStr .Checked)
        ⟨⟨[104, 105], 0, 2, by decide⟩⟩ = true
      ∧ byte_str_cmp (⟨⟨[0, 104, 105, 0], 1, 2, by decide⟩⟩ : ByteStr .Checked)
        ⟨⟨[104, 105], 0, 2, by decide⟩⟩ = .eq
      ∧ byte_str_hash (⟨⟨[0, 104, 105, 0], 1, 2, by decide⟩⟩ : ByteStr .Checked)
        = byte_str_hash (⟨⟨[104, 105], 0, 2, by decide⟩⟩ : ByteStr .Checked) :=
  C7_eq_ord_hash_over_str .Checked _ _ (by decide)

/-- C10: a checked and an unchecked `ByteStr` holding byte-for-byte
identical contents agree on the encoding side: `encode_raw` appends
identical bytes to any buffer and `encoded_len` returns the same value. -/
theorem C10_checked_unchecked_encode_agree (a : ByteStr .Checked)
    (b : ByteStr .Unchecked) (h : a.buf.toList = b.buf.toList) :
    (∀ buf : List Nat,
        byte_str_encode_raw a buf = byte_str_unchecked_encode_raw b buf)
      ∧ byte_str_encoded_len a = byte_str_unchecked_encoded_len b := by
  have hlen : a.buf.len = b.buf.len := by
    rw [← BytesView.toList_length a.buf, ← BytesView.toList_length b.buf, h]
  constructor
  · intro buf
    simp [byte_str_encode_raw, byte_str_unchecked_encode_raw,
      ByteStr.is_empty, ByteStr.len, hlen, h]
  · simp [byte_str_encoded_len, byte_str_unchecked_encoded_len,
      ByteStr.is_empty, ByteStr.len, hlen, h]

/-- C10 witness: a checked and an unchecked buffer over different
allocations and offsets but identical contents (bytes 104, 105), compared on
a concrete buffer. -/
theorem C10_checked_unchecked_encode_agree_witness :
    byte_str_encode_raw (⟨⟨[0, 104, 105], 1, 2, by decide⟩⟩ : ByteStr .Checked) [7]
        = byte_str_unchecked_encode_raw
          (⟨⟨[104, 105, 9], 0, 2, by decide⟩⟩ : ByteStr .Unchecked) [7]
      ∧ byte_str_encoded_len (⟨⟨[0, 104, 105], 1, 2, by decide⟩⟩ : ByteStr .Checked)
        = byte_str_unchecked_encoded_len
          (⟨⟨[104, 105, 9], 0, 2, by decide⟩⟩ : ByteStr .Unchecked) :=
  ⟨(C10_checked_unchecked_encode_agree _ _ (by decide)).1 [7],
    (C10_checked_unchecked_encode_agree _ _ (by decide)).2⟩

/-- C9: every checked `ByteStr` reachable through the public API
(`from_utf8`, `From<String>`, `From<&str>`, `Default`, `clear`,
`merge_field`) contains only valid UTF-8 bytes, so the unchecked `str`
conversion inside `as_str` is sound for the `Checked` variant; the
invariant is preserved by every operation. -/
theorem C9_checked_utf8_invariant (b : ByteStr .Checked)
    (hb : CheckedReachable b) : utf8_valid b.as_str = true := by
  induction hb with
  | of_from_utf8 v b h =>
    by_cases hv : utf8_valid v.toList = true
    · simp only [byte_str_from_utf8, if_pos hv] at h
      have hb : (⟨v⟩ : ByteStr .Checked) = b := Except.ok.inj h
      rw [← hb]
      exact hv
    · simp [byte_str_from_utf8, hv] at h
  | of_from_string s =>
    simpa [ByteStr.as_str, byte_str_from_string, BytesView.toList_ofList]
      using s.property
  | of_from_str s =>
    simpa [ByteStr.as_str, byte_str_from_str, byte_str_from_string,
      BytesView.toList_ofList] using s.property
  | of_default => rfl
  | of_clear b hb ih =>
    simp only [ByteStr.clear, ByteStr.as_str, BytesView.clearBytes,
      BytesView.toList, List.take_zero]
    rfl
  | of_merge_field b b2 tag wt buf rest hb hmf ih =>
    by_cases htag : tag = 1
    · subst htag
      rw [byte_str_merge_field, if_pos rfl] at hmf
      cases wt <;> simp only [byte_str.merge] at hmf <;>
        try exact Except.noConfusion hmf
      split at hmf
      · exact Except.noConfusion hmf
      · split at hmf
        · split at hmf
          · rename_i hval
            have hpair := Except.ok.inj hmf
            have hb2 : (⟨BytesView.ofList _⟩ : ByteStr .Checked) = b2 :=
              congrArg Prod.fst hpair
            rw [← hb2]
            simpa [ByteStr.as_str, BytesView.toList_ofList] using hval
          · exact Except.noConfusion hmf
        · exact Except.noConfusion hmf
    · rw [byte_str_merge_field, if_neg htag] at hmf
      cases hsk : skip_field wt tag buf with
      | error e =>
        rw [hsk] at hmf
        exact Except.noConfusion hmf
      | ok r =>
        rw [hsk] at hmf
        have hpair := Except.ok.inj hmf
        have hb2 : b = b2 := congrArg Prod.fst hpair
        rw [← hb2]
        exact ih

/-- C9 witness: the invariant at two concrete reachable values — the default
buffer and a buffer built by the validating constructor. -/
theorem C9_checked_utf8_invariant_witness :
    utf8_valid (ByteStr.as_str (byte_str_default .Checked)) = true
      ∧ utf8_valid (ByteStr.as_str
          (⟨⟨[104, 195, 169], 0, 3, by decide⟩⟩ : ByteStr .Checked)) = true :=
  ⟨C9_checked_utf8_invariant (byte_str_default .Checked) .of_default,
    C9_checked_utf8_invariant _
      (.of_from_utf8 ⟨[104, 195, 169], 0, 3, by decide⟩ _
        (by rw [byte_str_from_utf8, if_pos (by decide)]))⟩

end ProstSpec
